import Mathlib

/-! Gamification progression engine of TrashTrackerbackend.

A shallow embedding of `src/services/gamificationService.js` (points, levels,
streaks, achievements, progress, leaderboard) together with the part of
`src/models/User.js` it reads and writes (the `stats` schema and
`updateStats`), the progress virtual of `src/models/Team.js`, and the calls
`createReport` of `src/controllers/reportController.js` makes to the service.

Modelling conventions

* The numeric fields of `user.stats` and an explicit `amount` hold integers;
  they are `Int` here. `Math.floor(n * 1.2)` on an integer `n` is `6 * n / 5`
  rounded down (`floor120_eq_floor`).
* A `Date` is its `getTime()` value: milliseconds since the epoch, an `Int`.
  `new Date()` is the parameter `now`. `setHours(0, 0, 0, 0)` is a parameter of
  `updateStreakAt`; `updateStreak` takes it for a server zone of fixed offset
  `tz` (milliseconds east of UTC), `setHours0In` for a zone with daylight time.
* `null` and `undefined` are `none`.
* The user collection is a map from `_id` to the stored document;
  `User.findById` and `user.save()` are `findById` and `save`. A document is
  saved by the function that read it, so `save` writes it whole; the one save
  of a document read earlier, in `createReport`, writes the modified paths only
  (`saveModified`).
* A thrown `Error(msg)` is `Except.error msg`.
* `POINTS[action]` is a number for the seven keys written in the table
  (`POINTS`), a function or object for the names the table inherits from
  `Object.prototype` (`inheritedKeys`), and `undefined` otherwise. The action
  is given by its property key.
* For the leaderboard the collection is a list of documents and the store's
  descending sort is a parameter; the report collection of `updateStats` is a
  list of report documents.
-/

namespace Gamification

/-! ## Data model (`models/User.js`) -/

/-- One element of `stats.achievements`. -/
structure AchievementRecord where
  id : String
  name : String
  description : String
  icon : String
  points : Int
  unlockedAt : Int
  deriving DecidableEq, Repr

/-- The `stats` sub-document of the user schema, restricted to the fields the
gamification service touches. -/
structure Stats where
  totalReports : Int
  resolvedReports : Int
  totalPoints : Int
  level : Int
  experience : Int
  experienceToNextLevel : Int
  streak : Int
  longestStreak : Int
  lastReportDate : Option Int
  achievements : List AchievementRecord
  deriving DecidableEq, Repr

/-- A user document as the service sees it: `_id`, `stats` and
`community.followers`. -/
structure User where
  _id : Nat
  stats : Stats
  followers : List Nat
  deriving DecidableEq, Repr

/-- What is stored under one `_id`. -/
structure Stored where
  stats : Stats
  followers : List Nat
  deriving DecidableEq, Repr

/-- The user collection. -/
abbrev Store := Nat → Option Stored

/-- Source `User.findById(userId)`: the document, or `none` (JavaScript `null`). -/
def findById (db : Store) (userId : Nat) : Option User :=
  match db userId with
  | none => none
  | some r => some { _id := userId, stats := r.stats, followers := r.followers }

/-- Source `user.save()`: writes the document back under its `_id`. -/
def save (db : Store) (user : User) : Store :=
  fun i => if i = user._id then some { stats := user.stats, followers := user.followers } else db i

/-- Schema defaults of `stats` for a freshly created account. -/
def defaultStats : Stats :=
  { totalReports := 0, resolvedReports := 0, totalPoints := 0, level := 1, experience := 0,
    experienceToNextLevel := 100, streak := 0, longestStreak := 0, lastReportDate := none,
    achievements := [] }

/-! ## Achievement catalog (`ACHIEVEMENTS`) -/

/-- An entry of the `ACHIEVEMENTS` table. -/
structure Achievement where
  id : String
  name : String
  description : String
  icon : String
  points : Int
  deriving DecidableEq, Repr

namespace ACHIEVEMENTS

def FIRST_REPORT : Achievement :=
  { id := "first_report", name := "First Steps", description := "Submit your first report",
    icon := "🎯", points := 10 }

def REPORTS_10 : Achievement :=
  { id := "reports_10", name := "Getting Started", description := "Submit 10 reports",
    icon := "📝", points := 50 }

def REPORTS_50 : Achievement :=
  { id := "reports_50", name := "Dedicated Reporter", description := "Submit 50 reports",
    icon := "📊", points := 200 }

def REPORTS_100 : Achievement :=
  { id := "reports_100", name := "Report Master", description := "Submit 100 reports",
    icon := "🏆", points := 500 }

def STREAK_3 : Achievement :=
  { id := "streak_3", name := "Consistent", description := "Report for 3 consecutive days",
    icon := "🔥", points := 30 }

def STREAK_7 : Achievement :=
  { id := "streak_7", name := "Week Warrior", description := "Report for 7 consecutive days",
    icon := "⚡", points := 100 }

def STREAK_30 : Achievement :=
  { id := "streak_30", name := "Monthly Master", description := "Report for 30 consecutive days",
    icon := "💎", points := 500 }

def LEVEL_5 : Achievement :=
  { id := "level_5", name := "Rising Star", description := "Reach level 5",
    icon := "⭐", points := 100 }

def LEVEL_10 : Achievement :=
  { id := "level_10", name := "Community Hero", description := "Reach level 10",
    icon := "🌟", points := 300 }

def LEVEL_25 : Achievement :=
  { id := "level_25", name := "Legend", description := "Reach level 25",
    icon := "👑", points := 1000 }

def TEAM_JOIN : Achievement :=
  { id := "team_join", name := "Team Player", description := "Join a community team",
    icon := "🤝", points := 50 }

def CHALLENGE_WIN : Achievement :=
  { id := "challenge_win", name := "Challenge Champion", description := "Win your first challenge",
    icon := "🏅", points := 200 }

def SOCIAL_BUTTERFLY : Achievement :=
  { id := "social_butterfly", name := "Social Butterfly", description := "Have 10 followers",
    icon := "🦋", points := 100 }

end ACHIEVEMENTS

/-- Source `Object.values(ACHIEVEMENTS)`, in declaration order. -/
def getAllAchievements : List Achievement :=
  [ACHIEVEMENTS.FIRST_REPORT, ACHIEVEMENTS.REPORTS_10, ACHIEVEMENTS.REPORTS_50,
   ACHIEVEMENTS.REPORTS_100, ACHIEVEMENTS.STREAK_3, ACHIEVEMENTS.STREAK_7,
   ACHIEVEMENTS.STREAK_30, ACHIEVEMENTS.LEVEL_5, ACHIEVEMENTS.LEVEL_10,
   ACHIEVEMENTS.LEVEL_25, ACHIEVEMENTS.TEAM_JOIN, ACHIEVEMENTS.CHALLENGE_WIN,
   ACHIEVEMENTS.SOCIAL_BUTTERFLY]

/-! ## Points table (`POINTS`) -/

/-- Source `POINTS.STREAK_BONUS`. -/
def STREAK_BONUS : Int := 5

/-- Source `POINTS[action]` among the own properties of the table: the table value,
`none` for a key that is not written in the table. A `null` action is the key
`"null"`. For such a key the lookup is JavaScript `undefined`, unless the key
is one of `inheritedKeys`. -/
def POINTS (action : Option String) : Option Int :=
  match action with
  | some "REPORT_SUBMITTED" => some 10
  | some "REPORT_RESOLVED" => some 25
  | some "DAILY_LOGIN" => some 5
  | some "STREAK_BONUS" => some STREAK_BONUS
  | some "CHALLENGE_COMPLETION" => some 100
  | some "TEAM_CONTRIBUTION" => some 15
  | some "SOCIAL_ACTION" => some 2
  | _ => none

/-- JavaScript `a || b` on values that are a number or `null`/`undefined`:
`a` when it is truthy (a non-zero number), else `b`. -/
def jsOr (a b : Option Int) : Option Int :=
  match a with
  | some n => if n ≠ 0 then some n else b
  | none => b

/-- JavaScript `a || 0`: a number in every case. -/
def jsOrZero (a : Option Int) : Int :=
  match a with
  | some n => if n ≠ 0 then n else 0
  | none => 0

/-- The property names every object literal inherits from `Object.prototype`.
For such a name `POINTS[name]` is not `undefined`: it is a function (for
`__proto__` the prototype object), a truthy value that is not a number. -/
def inheritedKeys : List String :=
  ["constructor", "__defineGetter__", "__defineSetter__", "hasOwnProperty",
   "__lookupGetter__", "__lookupSetter__", "isPrototypeOf", "propertyIsEnumerable",
   "toString", "valueOf", "__proto__", "toLocaleString"]

/-- Whether `amount || POINTS[action] || 0` is an inherited function or object
and not a number: the amount is falsy (`null` or 0) and the action is one of
`inheritedKeys`. -/
def resolvesToInherited (action : Option String) (amount : Option Int) : Bool :=
  match jsOr amount none, action with
  | none, some key => decide (key ∈ inheritedKeys)
  | _, _ => false

/-- The number the expression `amount || POINTS[action] || 0` of `awardPoints`
evaluates to. When `resolvesToInherited` holds the expression is not a number,
and `awardPoints` does not consult this value. -/
def pointsToAward (action : Option String) (amount : Option Int) : Int :=
  jsOrZero (jsOr amount (POINTS action))

/-! ## Achievement evaluator (`checkAchievements`) -/

/-- JavaScript `!trigger` for a string or `null`: true for `null` and for `""`. -/
def noTrigger (trigger : Option String) : Bool :=
  match trigger with
  | none => true
  | some s => s == ""

/-- The first half of `checkAchievements`: the definitions pushed on
`newAchievements`, in push order. -/
def candidates (user : User) (trigger : Option String) : List Achievement :=
  (if trigger = some "report" ∨ noTrigger trigger = true then
      (if user.stats.totalReports = 1 then [ACHIEVEMENTS.FIRST_REPORT] else []) ++
      (if user.stats.totalReports = 10 then [ACHIEVEMENTS.REPORTS_10] else []) ++
      (if user.stats.totalReports = 50 then [ACHIEVEMENTS.REPORTS_50] else []) ++
      (if user.stats.totalReports = 100 then [ACHIEVEMENTS.REPORTS_100] else [])
    else []) ++
  (if trigger = some "streak" ∨ noTrigger trigger = true then
      (if user.stats.streak = 3 then [ACHIEVEMENTS.STREAK_3] else []) ++
      (if user.stats.streak = 7 then [ACHIEVEMENTS.STREAK_7] else []) ++
      (if user.stats.streak = 30 then [ACHIEVEMENTS.STREAK_30] else [])
    else []) ++
  (if trigger = some "level" ∨ noTrigger trigger = true then
      (if user.stats.level = 5 then [ACHIEVEMENTS.LEVEL_5] else []) ++
      (if user.stats.level = 10 then [ACHIEVEMENTS.LEVEL_10] else []) ++
      (if user.stats.level = 25 then [ACHIEVEMENTS.LEVEL_25] else [])
    else []) ++
  (if trigger = some "social" ∨ noTrigger trigger = true then
      (if (user.followers.length : Int) ≥ 10 then [ACHIEVEMENTS.SOCIAL_BUTTERFLY] else [])
    else [])

/-- One iteration of the loop `for (const achievement of newAchievements)`. -/
def unlock (now : Int) (stats : Stats) (achievement : Achievement) : Stats :=
  let alreadyUnlocked := stats.achievements.any (fun a => a.id == achievement.id)
  if alreadyUnlocked then stats
  else
    { stats with
      achievements := stats.achievements ++
        [{ id := achievement.id, name := achievement.name,
           description := achievement.description, icon := achievement.icon,
           points := achievement.points, unlockedAt := now }],
      totalPoints := stats.totalPoints + achievement.points,
      experience := stats.experience + achievement.points }

/-- Source `checkAchievements(user, trigger)`: the store after the conditional
`user.save()`, the mutated document, and the returned `newAchievements`. -/
def checkAchievements (db : Store) (user : User) (trigger : Option String) (now : Int) :
    Store × User × List Achievement :=
  let newAchievements := candidates user trigger
  let user := { user with stats := newAchievements.foldl (unlock now) user.stats }
  let db := if newAchievements.length > 0 then save db user else db
  (db, user, newAchievements)

/-! ## Level engine (`checkLevelUp`) -/

/-- The value returned by `checkLevelUp`. -/
structure LevelUpResult where
  leveledUp : Bool
  newLevel : Option Int
  bonus : Option Int
  deriving DecidableEq, Repr

/-- Source `Math.floor(experienceToNext * 1.2)` on an integer. -/
def floor120 (experienceToNext : Int) : Int :=
  6 * experienceToNext / 5

/-- The four assignments of the `if` branch of `checkLevelUp`. -/
def levelUp (stats : Stats) : Stats :=
  let currentLevel := stats.level
  let experienceToNext := stats.experienceToNextLevel
  { stats with
    level := stats.level + 1,
    experience := stats.experience - experienceToNext,
    experienceToNextLevel := floor120 experienceToNext,
    totalPoints := stats.totalPoints + currentLevel * 10 }

/-- Source `checkLevelUp(user)`: a single `if`, then the level achievements. -/
def checkLevelUp (db : Store) (user : User) (now : Int) : Store × User × LevelUpResult :=
  let currentLevel := user.stats.level
  let experience := user.stats.experience
  let experienceToNext := user.stats.experienceToNextLevel
  if experience ≥ experienceToNext then
    let levelUpBonus := currentLevel * 10
    let user := { user with stats := levelUp user.stats }
    let r := checkAchievements db user (some "level") now
    (r.1, r.2.1,
      { leveledUp := true, newLevel := some r.2.1.stats.level, bonus := some levelUpBonus })
  else
    (db, user, { leveledUp := false, newLevel := none, bonus := none })

/-! ## Points ledger (`awardPoints`) -/

/-- The object `{ pointsAwarded, newTotal }` returned by `awardPoints`. -/
structure AwardResult where
  pointsAwarded : Int
  newTotal : Int
  deriving DecidableEq, Repr

/-- The two `+=` of `awardPoints`: `totalPoints` and `experience` grow by the
same amount. -/
def addPoints (stats : Stats) (pointsToAward : Int) : Stats :=
  { stats with
    totalPoints := stats.totalPoints + pointsToAward,
    experience := stats.experience + pointsToAward }

/-- Source `awardPoints(userId, action, amount = null)`. The result is the store after
the call and the returned value; `none` is the bare `return;`
(JavaScript `undefined`).

When the resolved amount is an inherited function or object, the test
`pointsToAward <= 0` is false (it compares `NaN`), each `+=` builds a string
that the `Number` paths of the schema refuse, and the first `user.save()`
reached (in `checkAchievements` or at the end of `awardPoints`) rejects with a
`ValidationError`, which is rethrown: nothing is written. The message is
abbreviated to its first words. -/
def awardPoints (db : Store) (userId : Nat) (action : Option String) (amount : Option Int)
    (now : Int) : Except String (Store × Option AwardResult) :=
  match findById db userId with
  | none => Except.error "User not found"
  | some user =>
    if resolvesToInherited action amount then Except.error "User validation failed"
    else
      let pts := pointsToAward action amount
      if pts ≤ 0 then Except.ok (db, none)
      else
        let user := { user with stats := addPoints user.stats pts }
        let r := checkLevelUp db user now
        let user := r.2.1
        Except.ok
          (save r.1 user, some { pointsAwarded := pts, newTotal := user.stats.totalPoints })

/-! ## Streak tracker (`updateStreak`) -/

/-- The object `{ streak, longestStreak }` returned by `updateStreak`. -/
structure StreakResult where
  streak : Int
  longestStreak : Int
  deriving DecidableEq, Repr

/-- Milliseconds in a day, the constant `86400000`. -/
def DAY_MS : Int := 86400000

/-- Source `d.setHours(0, 0, 0, 0)`: local midnight of the day of `t`, in the zone
`tz` milliseconds east of UTC. -/
def setHours0 (tz t : Int) : Int :=
  t - (t + tz) % 86400000

/-- Source `d.setHours(0, 0, 0, 0)` in a zone whose UTC offset changes with the
instant (`offset t` milliseconds east of UTC at `t`): midnight on the local
wall clock of the day of `t`, converted back with the offset in force around
that midnight. Exact for zones that change offset well inside the local day, as
America/New_York does (at 02:00). -/
def setHours0In (offset : Int → Int) (t : Int) : Int :=
  let wall := t + offset t
  let wallMidnight := wall - wall % 86400000
  wallMidnight - offset (wallMidnight - offset t)

/-- The zone America/New_York around the start of daylight time in 2026: UTC-5
before 2026-03-08T07:00:00Z (02:00 on the local clock), UTC-4 from then on. -/
def offsetNewYork (t : Int) : Int :=
  if t < 1772953200000 then -18000000 else -14400000

/-- Source `updateStreak(userId)` run at time `now`, with `setHours(0, 0, 0, 0)`
of the server zone as the parameter `startOfDay`. -/
def updateStreakAt (startOfDay : Int → Int) (db : Store) (userId : Nat) (now : Int) :
    Except String (Store × StreakResult) :=
  match findById db userId with
  | none => Except.error "User not found"
  | some user =>
    let today := startOfDay now
    let lastReportDate := user.stats.lastReportDate.map startOfDay
    let newDay : Bool :=
      match lastReportDate with
      | none => true
      | some d => decide (d < today)
    if newDay then
      let consecutive : Bool :=
        match lastReportDate with
        | none => true
        | some d => decide (d = today - 86400000)
      let streak := if consecutive then user.stats.streak + 1 else 1
      let longestStreak :=
        if streak > user.stats.longestStreak then streak else user.stats.longestStreak
      let streakBonus := streak * STREAK_BONUS
      let user := { user with stats := { user.stats with
        streak := streak,
        lastReportDate := some today,
        longestStreak := longestStreak,
        totalPoints := if streak > 1 then user.stats.totalPoints + streakBonus
                       else user.stats.totalPoints,
        experience := if streak > 1 then user.stats.experience + streakBonus
                      else user.stats.experience } }
      Except.ok (save db user,
        { streak := user.stats.streak, longestStreak := user.stats.longestStreak })
    else
      Except.ok (db, { streak := user.stats.streak, longestStreak := user.stats.longestStreak })

/-- Source `updateStreak(userId)` run at time `now` on a server whose zone is the
fixed offset `tz`. -/
def updateStreak (db : Store) (userId : Nat) (tz now : Int) :
    Except String (Store × StreakResult) :=
  updateStreakAt (setHours0 tz) db userId now

/-! ## Progress reporter (`getUserProgress`) -/

/-- A JavaScript number that may have left the finite range. Finite values are
kept exact. -/
inductive JsNumber where
  | nan
  | posInf
  | negInf
  | finite (q : ℚ)
  deriving DecidableEq, Repr

/-- JavaScript `a / b` on two integers. -/
def jsDiv (a b : Int) : JsNumber :=
  if b = 0 then
    (if a = 0 then JsNumber.nan else if a > 0 then JsNumber.posInf else JsNumber.negInf)
  else JsNumber.finite ((a : ℚ) / (b : ℚ))

/-- JavaScript `x * 100`. -/
def jsTimes100 (x : JsNumber) : JsNumber :=
  match x with
  | JsNumber.finite q => JsNumber.finite (q * 100)
  | other => other

/-- JavaScript `Math.min(100, x)`. -/
def jsMin100 (x : JsNumber) : JsNumber :=
  match x with
  | JsNumber.nan => JsNumber.nan
  | JsNumber.posInf => JsNumber.finite 100
  | JsNumber.negInf => JsNumber.negInf
  | JsNumber.finite q => JsNumber.finite (min 100 q)

/-- The object returned by `getUserProgress`. -/
structure Progress where
  level : Int
  experience : Int
  experienceToNext : Int
  progressPercentage : JsNumber
  totalPoints : Int
  totalReports : Int
  resolvedReports : Int
  streak : Int
  longestStreak : Int
  achievements : Nat
  totalAchievements : Nat
  deriving DecidableEq, Repr

/-- Source `getUserProgress(userId)`. -/
def getUserProgress (db : Store) (userId : Nat) : Except String Progress :=
  match findById db userId with
  | none => Except.error "User not found"
  | some user =>
    Except.ok
      { level := user.stats.level,
        experience := user.stats.experience,
        experienceToNext := user.stats.experienceToNextLevel,
        progressPercentage :=
          jsMin100 (jsTimes100 (jsDiv user.stats.experience user.stats.experienceToNextLevel)),
        totalPoints := user.stats.totalPoints,
        totalReports := user.stats.totalReports,
        resolvedReports := user.stats.resolvedReports,
        streak := user.stats.streak,
        longestStreak := user.stats.longestStreak,
        achievements := user.stats.achievements.length,
        totalAchievements := getAllAchievements.length }

/-! ## Observers used to state the results -/

/-- The stats stored for `userId` once a call has returned; `none` when the
call threw or no such user is stored. -/
def statsAfter {α : Type} (r : Except String (Store × α)) (userId : Nat) : Option Stats :=
  match r with
  | Except.ok (db, _) => (db userId).map (fun d => d.stats)
  | Except.error _ => none

/-- The value a call returned; `none` when it threw. -/
def returned {α : Type} (r : Except String (Store × α)) : Option α :=
  match r with
  | Except.ok (_, v) => some v
  | Except.error _ => none

/-- The `pointsAwarded` field of what `awardPoints` returned: `none` when it
threw, `some none` when it returned `undefined`. -/
def pointsAwardedOf (r : Except String (Store × Option AwardResult)) : Option (Option Int) :=
  (returned r).map (Option.map AwardResult.pointsAwarded)

/-- One `awardPoints` call of a sequence. -/
structure AwardCall where
  action : Option String
  amount : Option Int
  now : Int
  deriving DecidableEq, Repr

/-- Run a sequence of `awardPoints` calls for one user, each on the store the
previous one left; a call that throws has written nothing, and the run goes on
with the next call. -/
def awardPointsSeq (db : Store) (userId : Nat) : List AwardCall → Store
  | [] => db
  | c :: cs =>
    match awardPoints db userId c.action c.amount c.now with
    | Except.ok (db1, _) => awardPointsSeq db1 userId cs
    | Except.error _ => awardPointsSeq db userId cs

/-- A store holding one freshly created account, under `_id` 1. -/
def newUserStore : Store :=
  fun i => if i = 1 then some { stats := defaultStats, followers := [] } else none

/-- A store holding one account under `_id` 1 with the given stats. -/
def singleStore (stats : Stats) : Store :=
  fun i => if i = 1 then some { stats := stats, followers := [] } else none

/-! ## The level-up loop as the specification words it -/

/-- The single level-up step of the specification: `experience -=
experienceToNextLevel; level += 1; experienceToNextLevel = floor(1.2 *
experienceToNextLevel); totalPoints += previousLevel * 10`. -/
def specLevelUpStep (s : Stats) : Stats :=
  { s with
    experience := s.experience - s.experienceToNextLevel,
    level := s.level + 1,
    experienceToNextLevel := ⌊(12 / 10 : ℚ) * (s.experienceToNextLevel : ℚ)⌋,
    totalPoints := s.totalPoints + s.level * 10 }

/-- The specification's loop `while experience ≥ experienceToNextLevel`, run for
at most `fuel` iterations. -/
def specLevelUpLoop : Nat → Stats → Stats
  | 0, s => s
  | fuel + 1, s =>
    if s.experience ≥ s.experienceToNextLevel then specLevelUpLoop fuel (specLevelUpStep s)
    else s

/-- A fresh account that has been credited 250 experience. -/
def stats250 : Stats := { defaultStats with experience := 250 }

/-- A user with streak 2 whose last report was at the epoch (midnight UTC of
day 0). -/
def statsDay0 : Stats :=
  { defaultStats with streak := 2, longestStreak := 2, lastReportDate := some 0 }

/-- The level-up scenario of the specification: level 1, experience 95,
threshold 100. -/
def stats95 : Stats := { defaultStats with experience := 95 }

/-! ## Helpers for the streak tracker and the achievement evaluator -/

/-- The stats `updateStreak` writes on a new day, as a function of the new
streak value: the assignments of lines 184 to 196 of the service. -/
def streakStats (stats : Stats) (today streak : Int) : Stats :=
  { stats with
    streak := streak,
    lastReportDate := some today,
    longestStreak := if streak > stats.longestStreak then streak else stats.longestStreak,
    totalPoints := if streak > 1 then stats.totalPoints + streak * STREAK_BONUS
                   else stats.totalPoints,
    experience := if streak > 1 then stats.experience + streak * STREAK_BONUS
                  else stats.experience }

/-- Run `updateStreak` for one user at each of the given times, each call on
the store the previous one left; a call that throws ends the run. -/
def updateStreakSeq (db : Store) (userId : Nat) (tz : Int) : List Int → Store
  | [] => db
  | now :: rest =>
    match updateStreak db userId tz now with
    | Except.ok (db1, _) => updateStreakSeq db1 userId tz rest
    | Except.error _ => db

/-- The ids recorded in `stats.achievements`, in order. -/
def achievementIds (stats : Stats) : List String :=
  stats.achievements.map (fun r => r.id)

/-- The record `checkAchievements` pushes for a definition unlocked at `now`. -/
def recordOf (now : Int) (achievement : Achievement) : AchievementRecord :=
  { id := achievement.id, name := achievement.name, description := achievement.description,
    icon := achievement.icon, points := achievement.points, unlockedAt := now }

/-- A user with streak 5 whose last report was on day 1 (UTC). -/
def statsDay1 : Stats :=
  { defaultStats with streak := 5, longestStreak := 5, lastReportDate := some 86400000 }

/-- A record with streak 3 and no last report date. -/
def statsNoDate : Stats := { defaultStats with streak := 3, longestStreak := 3 }

/-- A user with streak 9 (longest 9) whose last report was on day 0 (UTC). -/
def statsStreak9 : Stats :=
  { defaultStats with streak := 9, longestStreak := 9, lastReportDate := some 0 }

/-- A user with one report whose `first_report` achievement is already
unlocked. -/
def statsFirstReportDone : Stats :=
  { defaultStats with totalReports := 1, totalPoints := 10, experience := 10,
                      achievements := [recordOf 0 ACHIEVEMENTS.FIRST_REPORT] }

/-- A user at level 4 with experience 95 (threshold 100) who already holds
`first_report`. -/
def statsLevel4 : Stats :=
  { defaultStats with totalReports := 2, totalPoints := 30, level := 4, experience := 95,
                      achievements := [recordOf 0 ACHIEVEMENTS.FIRST_REPORT] }

/-! ## Categories of the specification -/

/-- The category the specification gives a catalog definition (`reports`,
`streak`, `level`, `social`, `team`, `challenge`). The source table has no such
field: the grouping is the one of the four blocks of `checkAchievements`. -/
def specCategory (a : Achievement) : String :=
  if a.id = "first_report" ∨ a.id = "reports_10" ∨ a.id = "reports_50" ∨
      a.id = "reports_100" then "reports"
  else if a.id = "streak_3" ∨ a.id = "streak_7" ∨ a.id = "streak_30" then "streak"
  else if a.id = "level_5" ∨ a.id = "level_10" ∨ a.id = "level_25" then "level"
  else if a.id = "social_butterfly" then "social"
  else if a.id = "team_join" then "team"
  else "challenge"

/-- The definitions a call with no trigger finds to hold, restricted to one
category of the specification. -/
def restrictedCandidates (user : User) (category : String) : List Achievement :=
  (candidates user none).filter (fun a => specCategory a == category)

/-- The stats a call with no trigger would leave if it were restricted to one
category of the specification. -/
def unlockRestricted (user : User) (category : String) (now : Int) : Stats :=
  (restrictedCandidates user category).foldl (unlock now) user.stats

/-- A user of a server in America/New_York who reported on 7 March 2026:
streak 1, last report date the local midnight of 7 March (05:00 UTC). -/
def statsNewYorkMarch7 : Stats :=
  { defaultStats with streak := 1, longestStreak := 1, lastReportDate := some 1772859600000 }

/-- The same user after the report of 8 March 2026: streak 2, the bonus of 10
paid, last report date the local midnight of 8 March (05:00 UTC). -/
def statsNewYorkMarch8 : Stats :=
  { defaultStats with streak := 2, longestStreak := 2, totalPoints := 10, experience := 10,
                      lastReportDate := some 1772946000000 }

/-- A fresh account whose `totalReports` has just been set to 1. -/
def statsOneReport : Stats := { defaultStats with totalReports := 1 }

/-- What `user.save()` leaves in one path of a document that was read as `read`
and is now `doc`, while the store holds `stored`: mongoose writes the modified
paths only, so a path the document did not change keeps the stored value. -/
def modifiedPath {α : Type} [DecidableEq α] (read doc stored : α) : α :=
  if doc = read then stored else doc

/-- Source `user.save()` for the `stats` of a document read as `read` and changed
to `doc`: each scalar path by `modifiedPath`, and the elements pushed on
`achievements` since the read appended to the stored array. -/
def mergeModified (read doc stored : Stats) : Stats :=
  { totalReports := modifiedPath read.totalReports doc.totalReports stored.totalReports,
    resolvedReports :=
      modifiedPath read.resolvedReports doc.resolvedReports stored.resolvedReports,
    totalPoints := modifiedPath read.totalPoints doc.totalPoints stored.totalPoints,
    level := modifiedPath read.level doc.level stored.level,
    experience := modifiedPath read.experience doc.experience stored.experience,
    experienceToNextLevel :=
      modifiedPath read.experienceToNextLevel doc.experienceToNextLevel
        stored.experienceToNextLevel,
    streak := modifiedPath read.streak doc.streak stored.streak,
    longestStreak := modifiedPath read.longestStreak doc.longestStreak stored.longestStreak,
    lastReportDate :=
      modifiedPath read.lastReportDate doc.lastReportDate stored.lastReportDate,
    achievements := stored.achievements ++ doc.achievements.drop read.achievements.length }

/-- Source `user.save()` on a document that is not the latest state of the
store: `read` is the document as it was read, `user` the document now. When
the store still holds what was read this is `save` (`saveModified_fresh`). -/
def saveModified (db : Store) (read user : User) : Store :=
  match db user._id with
  | none => db
  | some stored =>
    fun i => if i = user._id then
        some { stats := mergeModified read.stats user.stats stored.stats,
               followers := stored.followers }
      else db i

/-- Source: the gamification part of `createReport`
(`controllers/reportController.js`), after the report has been saved. The
handler reads the user, adds 1 to `totalReports` and saves; then
`awardPoints` and `updateStreak` each read the user again by id and save their
own document; then `checkAchievements` is given the document the handler read
at the start. The calls of one request are taken at the same instant `now`.
The result is the store the handler leaves and the message of its error
response, if any (the first message is abbreviated). -/
def createReport (db : Store) (userId : Nat) (tz now : Int) : Store × Option String :=
  match findById db userId with
  | none => (db, some "Cannot read properties of null")
  | some user =>
    let user := { user with
      stats := { user.stats with totalReports := user.stats.totalReports + 1 } }
    let db := save db user
    match awardPoints db userId (some "REPORT_SUBMITTED") none now with
    | Except.error e => (db, some e)
    | Except.ok (db, _) =>
      match updateStreak db userId tz now with
      | Except.error e => (db, some e)
      | Except.ok (db, _) =>
        let r := checkAchievements db user (some "report") now
        if r.2.2.length > 0 then (saveModified db user r.2.1, none) else (db, none)

/-- A user one day into a streak with experience 95 of 100. -/
def stats95Streak : Stats :=
  { defaultStats with experience := 95, streak := 1, longestStreak := 1,
                      lastReportDate := some 0 }

/-- A user with experience 95 of 100 whose `totalReports` has just become 1. -/
def stats95OneReport : Stats := { defaultStats with experience := 95, totalReports := 1 }

/-! ## Team progress (`models/Team.js`) -/

/-- Source `progressPercentage` virtual of the team schema: the quotient of
`getUserProgress`, behind the guard `experienceToNextLevel === 0`. -/
def teamProgressPercentage (experience experienceToNextLevel : Int) : JsNumber :=
  if experienceToNextLevel = 0 then JsNumber.finite 100
  else jsMin100 (jsTimes100 (jsDiv experience experienceToNextLevel))

/-- The `progressPercentage` field of what `getUserProgress` returned; `none`
when it threw. -/
def progressPercentageOf (r : Except String Progress) : Option JsNumber :=
  match r with
  | Except.ok p => some p.progressPercentage
  | Except.error _ => none

/-- A record with experience 0 and `experienceToNextLevel` 0. -/
def statsZeroThreshold : Stats := { defaultStats with experienceToNextLevel := 0 }

/-- A record half way to the next level: experience 50 of 100. -/
def statsHalfway : Stats := { defaultStats with experience := 50 }

/-! ## Leaderboard (`getLeaderboard`) -/

/-- The `stats` fields the leaderboard query selects. -/
structure LeaderboardStats where
  totalPoints : Int
  totalReports : Int
  longestStreak : Int
  level : Int
  deriving DecidableEq, Repr

/-- One element of the array `getLeaderboard` returns. -/
structure LeaderboardEntry where
  rank : Nat
  id : Nat
  stats : LeaderboardStats
  deriving DecidableEq, Repr

/-- The `switch (type)` of `getLeaderboard`: the field the query sorts on. -/
def sortField (type : String) (stats : Stats) : Int :=
  if type = "points" then stats.totalPoints
  else if type = "reports" then stats.totalReports
  else if type = "streak" then stats.longestStreak
  else if type = "level" then stats.level
  else stats.totalPoints

/-- The projection `.select('... stats.totalPoints stats.totalReports
stats.longestStreak stats.level')`. -/
def selectStats (stats : Stats) : LeaderboardStats :=
  { totalPoints := stats.totalPoints, totalReports := stats.totalReports,
    longestStreak := stats.longestStreak, level := stats.level }

/-- Source `getLeaderboard(type, limit)` over the collection `users`. The
store's `sort({ [sortField]: -1 })` is the parameter `sortDescending`; `limit`
and the `map((user, index) => ...)` are as in the source. -/
def getLeaderboard (sortDescending : (User → Int) → List User → List User)
    (users : List User) (type : String) (limit : Nat) : List LeaderboardEntry :=
  let leaderboard := (sortDescending (fun u => sortField type u.stats) users).take limit
  leaderboard.mapIdx (fun index user =>
    { rank := index + 1, id := user._id, stats := selectStats user.stats })

/-- The value of the selected field in a leaderboard entry. -/
def entryValue (type : String) (stats : LeaderboardStats) : Int :=
  if type = "points" then stats.totalPoints
  else if type = "reports" then stats.totalReports
  else if type = "streak" then stats.longestStreak
  else if type = "level" then stats.level
  else stats.totalPoints

/-- What a descending sort of the store guarantees: the result is a
rearrangement of the collection in non-increasing order of the key. The order
of documents with equal keys is left open. -/
structure SortsDescending (sort : (User → Int) → List User → List User) : Prop where
  perm : ∀ key users, (sort key users).Perm users
  sorted : ∀ key users, (sort key users).Pairwise (fun a b => key b ≤ key a)

/-- A descending sort that keeps documents with equal keys in collection
order. -/
def sortKeepingTies (key : User → Int) (users : List User) : List User :=
  users.insertionSort (fun a b => key b ≤ key a)

/-- A descending sort that returns documents with equal keys in reverse
collection order. -/
def sortReversingTies (key : User → Int) (users : List User) : List User :=
  users.reverse.insertionSort (fun a b => key b ≤ key a)

/-- Two fresh accounts, `_id` 1 and `_id` 2, with equal stats. -/
def twoNewUsers : List User := [⟨1, defaultStats, []⟩, ⟨2, defaultStats, []⟩]

/-! ## Sequences of service calls -/

/-- One call of the service on a stored user. -/
inductive Op where
  | award (action : Option String) (amount : Option Int) (now : Int)
  | streak (tz now : Int)
  | achievements (trigger : Option String) (now : Int)
  deriving DecidableEq, Repr

/-- Run one call: `awardPoints`, `updateStreak`, or `checkAchievements` on the
document read from the store. The result is the store the call left. -/
def runOp (db : Store) (userId : Nat) (op : Op) : Except String Store :=
  match op with
  | Op.award action amount now =>
    match awardPoints db userId action amount now with
    | Except.ok (db1, _) => Except.ok db1
    | Except.error e => Except.error e
  | Op.streak tz now =>
    match updateStreak db userId tz now with
    | Except.ok (db1, _) => Except.ok db1
    | Except.error e => Except.error e
  | Op.achievements trigger now =>
    match findById db userId with
    | some user => Except.ok (checkAchievements db user trigger now).1
    | none => Except.error "User not found"

/-- Run a sequence of calls, each on the store the previous one left; a call
that throws has written nothing, and the run goes on with the next call. -/
def runOps (db : Store) (userId : Nat) : List Op → Store
  | [] => db
  | op :: ops =>
    match runOp db userId op with
    | Except.ok db1 => runOps db1 userId ops
    | Except.error _ => runOps db userId ops

/-! ## Recomputed statistics (`User.updateStats`, `models/User.js`) -/

/-- A report document, restricted to the fields `updateStats` queries. -/
structure Report where
  createdBy : Nat
  status : String
  deriving DecidableEq, Repr

/-- Source `Report.countDocuments(filter)` over the report collection. -/
def countDocuments (reports : List Report) (filter : Report → Bool) : Nat :=
  (reports.filter filter).length

/-- Source `user.updateStats()`: the store after `this.save()` and the mutated
document. `lastActive` is not among the modelled fields. -/
def updateStats (db : Store) (reports : List Report) (user : User) : Store × User :=
  let totalReports := countDocuments reports (fun r => r.createdBy == user._id)
  let resolvedReports :=
    countDocuments reports (fun r => r.createdBy == user._id && r.status == "resolved")
  let user := { user with stats := { user.stats with
    totalReports := (totalReports : Int),
    resolvedReports := (resolvedReports : Int),
    level := ((totalReports / 10 : Nat) : Int) + 1,
    totalPoints := (totalReports : Int) * 10 + (resolvedReports : Int) * 50 } }
  (save db user, user)

/-- A user at level 7 with 500 points earned through the service. -/
def statsVeteran : Stats :=
  { defaultStats with totalPoints := 500, level := 7, experience := 40,
                      experienceToNextLevel := 297 }

/-- Two reports of user 1, one of them resolved, and one report of user 2. -/
def threeReports : List Report := [⟨1, "pending"⟩, ⟨1, "resolved"⟩, ⟨2, "resolved"⟩]

/-! ## Store lemmas -/

theorem findById_id {db : Store} {userId : Nat} {user : User}
    (h : findById db userId = some user) : user._id = userId := by
  unfold findById at h
  split at h
  · exact absurd h (by simp)
  · simp only [Option.some.injEq] at h
    rw [← h]

theorem stats_of_findById {db : Store} {userId : Nat} {user : User}
    (h : findById db userId = some user) :
    (db userId).map (fun d => d.stats) = some user.stats := by
  unfold findById at h
  split at h
  · exact absurd h (by simp)
  · rename_i r hr
    simp only [Option.some.injEq] at h
    rw [hr, ← h]
    rfl

theorem findById_none {db : Store} {userId : Nat} (h : db userId = none) :
    findById db userId = none := by
  unfold findById
  rw [h]

theorem findById_save (db : Store) (user : User) :
    findById (save db user) user._id = some user := by
  unfold findById save
  simp

theorem save_save (db : Store) (u v : User) (h : u._id = v._id) :
    save (save db u) v = save db v := by
  funext i
  unfold save
  by_cases hi : i = v._id
  · simp [hi]
  · simp [hi, h]

theorem statsAfter_save {α : Type} (db : Store) (user : User) (v : α) :
    statsAfter (Except.ok (save db user, v)) user._id = some user.stats := by
  simp [statsAfter, save]

/-! ## Achievement evaluator lemmas -/

theorem points_nonneg_of_mem_catalog {a : Achievement} (h : a ∈ getAllAchievements) :
    0 ≤ a.points := by
  simp only [getAllAchievements, List.mem_cons, List.mem_singleton, List.not_mem_nil,
    or_false] at h
  rcases h with h | h | h | h | h | h | h | h | h | h | h | h | h <;> subst h <;> decide

theorem candidates_subset_catalog (user : User) (trigger : Option String) {a : Achievement}
    (h : a ∈ candidates user trigger) : a ∈ getAllAchievements := by
  unfold candidates at h
  simp only [List.mem_append, List.mem_ite_nil_right, List.mem_singleton] at h
  simp only [getAllAchievements, List.mem_cons, List.mem_singleton, List.not_mem_nil, or_false]
  rcases h with ((h | h) | h) | h
  · rcases h.2 with ((h1 | h1) | h1) | h1 <;> simp [h1.2]
  · rcases h.2 with (h1 | h1) | h1 <;> simp [h1.2]
  · rcases h.2 with (h1 | h1) | h1 <;> simp [h1.2]
  · simp [h.2.2]

theorem candidates_points_nonneg (user : User) (trigger : Option String) {a : Achievement}
    (h : a ∈ candidates user trigger) : 0 ≤ a.points :=
  points_nonneg_of_mem_catalog (candidates_subset_catalog user trigger h)

theorem candidates_level_nil (user : User) (h5 : user.stats.level ≠ 5)
    (h10 : user.stats.level ≠ 10) (h25 : user.stats.level ≠ 25) :
    candidates user (some "level") = [] := by
  unfold candidates
  simp [noTrigger, h5, h10, h25]

theorem unlock_level (now : Int) (s : Stats) (a : Achievement) :
    (unlock now s a).level = s.level := by
  unfold unlock
  dsimp only
  split <;> rfl

theorem unlock_experienceToNextLevel (now : Int) (s : Stats) (a : Achievement) :
    (unlock now s a).experienceToNextLevel = s.experienceToNextLevel := by
  unfold unlock
  dsimp only
  split <;> rfl

theorem unlock_experience_le (now : Int) (s : Stats) (a : Achievement) (h : 0 ≤ a.points) :
    s.experience ≤ (unlock now s a).experience := by
  unfold unlock
  dsimp only
  split
  · exact le_refl _
  · dsimp only
    omega

theorem foldl_unlock_level (now : Int) (l : List Achievement) (s : Stats) :
    (l.foldl (unlock now) s).level = s.level := by
  induction l generalizing s with
  | nil => rfl
  | cons a l ih => rw [List.foldl_cons, ih, unlock_level]

theorem foldl_unlock_experienceToNextLevel (now : Int) (l : List Achievement) (s : Stats) :
    (l.foldl (unlock now) s).experienceToNextLevel = s.experienceToNextLevel := by
  induction l generalizing s with
  | nil => rfl
  | cons a l ih => rw [List.foldl_cons, ih, unlock_experienceToNextLevel]

theorem foldl_unlock_experience_le (now : Int) (l : List Achievement) (s : Stats)
    (h : ∀ a ∈ l, 0 ≤ a.points) :
    s.experience ≤ (l.foldl (unlock now) s).experience := by
  induction l generalizing s with
  | nil => exact le_refl _
  | cons a l ih =>
    rw [List.foldl_cons]
    exact le_trans (unlock_experience_le now s a (h a (List.mem_cons_self a l)))
      (ih _ (fun b hb => h b (List.mem_cons_of_mem a hb)))

theorem checkAchievements_id (db : Store) (user : User) (trigger : Option String) (now : Int) :
    (checkAchievements db user trigger now).2.1._id = user._id := rfl

theorem checkAchievements_followers (db : Store) (user : User) (trigger : Option String)
    (now : Int) : (checkAchievements db user trigger now).2.1.followers = user.followers := rfl

theorem checkAchievements_stats (db : Store) (user : User) (trigger : Option String)
    (now : Int) :
    (checkAchievements db user trigger now).2.1.stats =
      (candidates user trigger).foldl (unlock now) user.stats := rfl

theorem checkAchievements_store (db : Store) (user : User) (trigger : Option String)
    (now : Int) :
    (checkAchievements db user trigger now).1 = db ∨
      (checkAchievements db user trigger now).1 =
        save db (checkAchievements db user trigger now).2.1 := by
  unfold checkAchievements
  dsimp only
  split
  · right; rfl
  · left; rfl

theorem checkAchievements_of_nil (db : Store) (user : User) (trigger : Option String)
    (now : Int) (h : candidates user trigger = []) :
    checkAchievements db user trigger now = (db, user, []) := by
  unfold checkAchievements
  simp [h]

/-! ## Level engine lemmas -/

theorem floor120_eq_floor (n : Int) : floor120 n = ⌊(12 / 10 : ℚ) * (n : ℚ)⌋ := by
  symm
  rw [Int.floor_eq_iff]
  unfold floor120
  have h1 := Int.ediv_add_emod (6 * n) 5
  have h2 := Int.emod_nonneg (6 * n) (by decide : (5 : Int) ≠ 0)
  have h3 := Int.emod_lt_of_pos (6 * n) (by decide : (0 : Int) < 5)
  have e1 : ((5 * (6 * n / 5) + 6 * n % 5 : Int) : ℚ) = ((6 * n : Int) : ℚ) := by rw [h1]
  have e2 : (0 : ℚ) ≤ ((6 * n % 5 : Int) : ℚ) := by exact_mod_cast h2
  have e3 : ((6 * n % 5 : Int) : ℚ) < 5 := by exact_mod_cast h3
  push_cast at e1 e2 e3 ⊢
  constructor <;> linarith

theorem checkLevelUp_lt (db : Store) (user : User) (now : Int)
    (h : user.stats.experience < user.stats.experienceToNextLevel) :
    checkLevelUp db user now =
      (db, user, { leveledUp := false, newLevel := none, bonus := none }) := by
  unfold checkLevelUp
  simp [not_le.mpr h]

theorem checkLevelUp_ge (db : Store) (user : User) (now : Int)
    (h : user.stats.experienceToNextLevel ≤ user.stats.experience) :
    checkLevelUp db user now =
      ((checkAchievements db { user with stats := levelUp user.stats } (some "level") now).1,
       (checkAchievements db { user with stats := levelUp user.stats } (some "level") now).2.1,
       { leveledUp := true,
         newLevel := some (checkAchievements db { user with stats := levelUp user.stats }
           (some "level") now).2.1.stats.level,
         bonus := some (user.stats.level * 10) }) := by
  unfold checkLevelUp
  simp [h]

theorem checkLevelUp_id (db : Store) (user : User) (now : Int) :
    (checkLevelUp db user now).2.1._id = user._id := by
  unfold checkLevelUp
  dsimp only
  split <;> rfl

theorem checkLevelUp_followers (db : Store) (user : User) (now : Int) :
    (checkLevelUp db user now).2.1.followers = user.followers := by
  unfold checkLevelUp
  dsimp only
  split <;> rfl

theorem checkLevelUp_store (db : Store) (user : User) (now : Int) :
    (checkLevelUp db user now).1 = db ∨
      (checkLevelUp db user now).1 = save db (checkLevelUp db user now).2.1 := by
  by_cases h : user.stats.experienceToNextLevel ≤ user.stats.experience
  · rw [checkLevelUp_ge db user now h]
    exact checkAchievements_store db _ _ now
  · rw [checkLevelUp_lt db user now (not_le.mp h)]
    exact Or.inl rfl

theorem save_checkLevelUp (db : Store) (user : User) (now : Int) :
    save (checkLevelUp db user now).1 (checkLevelUp db user now).2.1 =
      save db (checkLevelUp db user now).2.1 := by
  rcases checkLevelUp_store db user now with h | h
  · rw [h]
  · rw [h, save_save _ _ _ rfl]

theorem checkLevelUp_level_le (db : Store) (user : User) (now : Int) :
    user.stats.level ≤ (checkLevelUp db user now).2.1.stats.level := by
  by_cases h : user.stats.experienceToNextLevel ≤ user.stats.experience
  · rw [checkLevelUp_ge db user now h]
    dsimp only
    rw [checkAchievements_stats, foldl_unlock_level]
    simp [levelUp]
  · rw [checkLevelUp_lt db user now (not_le.mp h)]

theorem checkLevelUp_experience_nonneg (db : Store) (user : User) (now : Int)
    (hexp : 0 ≤ user.stats.experience) :
    0 ≤ (checkLevelUp db user now).2.1.stats.experience := by
  by_cases h : user.stats.experienceToNextLevel ≤ user.stats.experience
  · rw [checkLevelUp_ge db user now h]
    dsimp only
    rw [checkAchievements_stats]
    refine le_trans ?_ (foldl_unlock_experience_le now _ _
      (fun a ha => candidates_points_nonneg _ _ ha))
    simp only [levelUp]
    omega
  · rw [checkLevelUp_lt db user now (not_le.mp h)]
    exact hexp

/-! ## Points ledger lemmas -/

theorem awardPoints_missing (db : Store) (userId : Nat) (action : Option String)
    (amount : Option Int) (now : Int) (h : findById db userId = none) :
    awardPoints db userId action amount now = Except.error "User not found" := by
  unfold awardPoints
  rw [h]

/-- An inherited name is not a key written in the table. -/
theorem POINTS_of_inherited {key : String} (h : key ∈ inheritedKeys) :
    POINTS (some key) = none := by
  simp only [inheritedKeys, List.mem_cons, List.mem_singleton, List.not_mem_nil,
    or_false] at h
  rcases h with h | h | h | h | h | h | h | h | h | h | h | h <;> subst h <;> rfl

theorem resolvesToInherited_iff (action : Option String) (amount : Option Int) :
    resolvesToInherited action amount = true ↔
      (amount = none ∨ amount = some 0) ∧ ∃ key, action = some key ∧ key ∈ inheritedKeys := by
  unfold resolvesToInherited
  cases amount with
  | none =>
    cases action with
    | none => simp [jsOr]
    | some key => simp [jsOr]
  | some n =>
    by_cases hn : n = 0
    · subst hn
      cases action with
      | none => simp [jsOr]
      | some key => simp [jsOr]
    · cases action <;> simp [jsOr, hn]

/-- Where the resolved amount is an inherited function or object, the number
of `pointsToAward` is 0. -/
theorem pointsToAward_of_inherited {action : Option String} {amount : Option Int}
    (h : resolvesToInherited action amount = true) : pointsToAward action amount = 0 := by
  obtain ⟨hfalsy, key, hkey, hmem⟩ := (resolvesToInherited_iff action amount).mp h
  subst hkey
  unfold pointsToAward
  rcases hfalsy with h0 | h0 <;> subst h0 <;> simp [jsOr, jsOrZero, POINTS_of_inherited hmem]

theorem resolvesToInherited_of_pos {action : Option String} {amount : Option Int}
    (hp : 0 < pointsToAward action amount) : resolvesToInherited action amount = false := by
  cases h : resolvesToInherited action amount with
  | false => rfl
  | true => rw [pointsToAward_of_inherited h] at hp; exact absurd hp (lt_irrefl 0)

theorem resolvesToInherited_of_not_inherited (action : Option String) (amount : Option Int)
    (h : ∀ key ∈ inheritedKeys, action ≠ some key) :
    resolvesToInherited action amount = false := by
  cases hin : resolvesToInherited action amount with
  | false => rfl
  | true =>
    obtain ⟨_, key, hkey, hmem⟩ := (resolvesToInherited_iff action amount).mp hin
    exact absurd hkey (h key hmem)

theorem resolvesToInherited_of_truthy (action : Option String) {n : Int} (hn : n ≠ 0) :
    resolvesToInherited action (some n) = false := by
  cases hin : resolvesToInherited action (some n) with
  | false => rfl
  | true =>
    obtain ⟨hfalsy, _⟩ := (resolvesToInherited_iff action (some n)).mp hin
    rcases hfalsy with h | h
    · cases h
    · exact absurd (Option.some.inj h) hn

/-- An inherited name with a falsy amount: the call throws and writes nothing. -/
theorem awardPoints_inherited (db : Store) (userId : Nat) (user : User)
    (action : Option String) (amount : Option Int) (now : Int)
    (h : findById db userId = some user) (hin : resolvesToInherited action amount = true) :
    awardPoints db userId action amount now = Except.error "User validation failed" := by
  unfold awardPoints
  rw [h]
  simp [hin]

theorem awardPoints_noop (db : Store) (userId : Nat) (user : User) (action : Option String)
    (amount : Option Int) (now : Int) (h : findById db userId = some user)
    (hin : resolvesToInherited action amount = false)
    (hp : pointsToAward action amount ≤ 0) :
    awardPoints db userId action amount now = Except.ok (db, none) := by
  unfold awardPoints
  rw [h]
  simp [hin, hp]

theorem awardPoints_award (db : Store) (userId : Nat) (user : User) (action : Option String)
    (amount : Option Int) (now : Int) (h : findById db userId = some user)
    (hp : 0 < pointsToAward action amount) :
    awardPoints db userId action amount now =
      Except.ok
        (save db (checkLevelUp db
            { user with stats := addPoints user.stats (pointsToAward action amount) } now).2.1,
         some { pointsAwarded := pointsToAward action amount,
                newTotal := (checkLevelUp db
                  { user with stats := addPoints user.stats (pointsToAward action amount) }
                  now).2.1.stats.totalPoints }) := by
  unfold awardPoints
  rw [h]
  simp only [resolvesToInherited_of_pos hp, Bool.false_eq_true, not_le.mpr hp, if_false]
  rw [save_checkLevelUp]

theorem specLevelUpStep_eq_levelUp (s : Stats) : specLevelUpStep s = levelUp s := by
  unfold specLevelUpStep levelUp
  rw [← floor120_eq_floor]

theorem specLevelUpLoop_step (fuel : Nat) (s : Stats)
    (h : s.experienceToNextLevel ≤ s.experience) :
    specLevelUpLoop (fuel + 1) s = specLevelUpLoop fuel (levelUp s) := by
  simp [specLevelUpLoop, h, specLevelUpStep_eq_levelUp]

theorem specLevelUpLoop_stop (fuel : Nat) (s : Stats)
    (h : s.experience < s.experienceToNextLevel) :
    specLevelUpLoop fuel s = s := by
  cases fuel with
  | zero => rfl
  | succ n => simp [specLevelUpLoop, not_le.mpr h]

theorem unlock_eq_or_length (now : Int) (s : Stats) (a : Achievement) :
    unlock now s a = s ∨
      (unlock now s a).achievements.length = s.achievements.length + 1 := by
  unfold unlock
  dsimp only
  split
  · exact Or.inl rfl
  · right
    simp

theorem foldl_unlock_length_le (now : Int) (l : List Achievement) (s : Stats) :
    s.achievements.length ≤ (l.foldl (unlock now) s).achievements.length := by
  induction l generalizing s with
  | nil => exact le_refl _
  | cons a l ih =>
    rw [List.foldl_cons]
    refine le_trans ?_ (ih _)
    rcases unlock_eq_or_length now s a with h | h
    · rw [h]
    · omega

theorem foldl_unlock_eq_of_achievements (now : Int) (l : List Achievement) (s : Stats)
    (h : (l.foldl (unlock now) s).achievements = s.achievements) :
    l.foldl (unlock now) s = s := by
  induction l generalizing s with
  | nil => rfl
  | cons a l ih =>
    rw [List.foldl_cons] at h ⊢
    have hlen := foldl_unlock_length_le now l (unlock now s a)
    rw [h] at hlen
    rcases unlock_eq_or_length now s a with hu | hu
    · rw [hu] at h ⊢
      exact ih s h
    · omega

/-- One `awardPoints` call on a stored user whose resolved amount is a number:
it returns, the user is still stored, experience stays non-negative, the level
does not drop, and the bound `experience < experienceToNextLevel` survives a
call that crosses at most one threshold and appends no achievement. -/
theorem awardPoints_step (db : Store) (userId : Nat) (user : User) (action : Option String)
    (amount : Option Int) (now : Int) (hfind : findById db userId = some user)
    (hin : resolvesToInherited action amount = false) :
    ∃ db1 r user1, awardPoints db userId action amount now = Except.ok (db1, r) ∧
      findById db1 userId = some user1 ∧
      (0 ≤ user.stats.experience → 0 ≤ user1.stats.experience) ∧
      user.stats.level ≤ user1.stats.level ∧
      (user.stats.experience < user.stats.experienceToNextLevel →
        user.stats.experience + pointsToAward action amount <
          user.stats.experienceToNextLevel + floor120 user.stats.experienceToNextLevel →
        user1.stats.achievements = user.stats.achievements →
        user1.stats.experience < user1.stats.experienceToNextLevel) := by
  by_cases hp : 0 < pointsToAward action amount
  · have hid := findById_id hfind
    subst hid
    refine ⟨_, _, (checkLevelUp db
      { user with stats := addPoints user.stats (pointsToAward action amount) } now).2.1,
      awardPoints_award db user._id user action amount now hfind hp, ?_, ?_, ?_, ?_⟩
    · have h := findById_save db (checkLevelUp db
        { user with stats := addPoints user.stats (pointsToAward action amount) } now).2.1
      rw [checkLevelUp_id] at h
      exact h
    · intro hexp
      apply checkLevelUp_experience_nonneg
      simp only [addPoints]
      omega
    · exact checkLevelUp_level_le db
        { user with stats := addPoints user.stats (pointsToAward action amount) } now
    · intro hlt hone hach
      by_cases hge : user.stats.experienceToNextLevel ≤
          user.stats.experience + pointsToAward action amount
      · have hge1 : ({ user with stats := addPoints user.stats (pointsToAward action amount) }
            : User).stats.experienceToNextLevel ≤
            ({ user with stats := addPoints user.stats (pointsToAward action amount) }
            : User).stats.experience := hge
        rw [checkLevelUp_ge db _ now hge1] at hach ⊢
        dsimp only at hach ⊢
        rw [checkAchievements_stats] at hach ⊢
        dsimp only at hach ⊢
        have hfold := foldl_unlock_eq_of_achievements now _ _ hach
        rw [hfold]
        simp only [levelUp, addPoints]
        omega
      · have hlt1 : ({ user with stats := addPoints user.stats (pointsToAward action amount) }
            : User).stats.experience <
            ({ user with stats := addPoints user.stats (pointsToAward action amount) }
            : User).stats.experienceToNextLevel := not_le.mp hge
        rw [checkLevelUp_lt db _ now hlt1]
        exact hlt1
  · refine ⟨db, none, user, awardPoints_noop db userId user action amount now hfind hin
      (not_lt.mp hp), hfind, fun h => h, le_refl _, fun h _ _ => h⟩

theorem awardPointsSeq_append (userId : Nat) (xs ys : List AwardCall) :
    ∀ db : Store, awardPointsSeq db userId (xs ++ ys) =
      awardPointsSeq (awardPointsSeq db userId xs) userId ys := by
  induction xs with
  | nil => intro db; rfl
  | cons x xs ih =>
    intro db
    simp only [List.cons_append, awardPointsSeq]
    split
    · exact ih _
    · exact ih _

/-- One `awardPoints` call of a run on a stored user, whether it returns or
throws: the user is still stored, experience stays non-negative, the level does
not drop, and the bound `experience < experienceToNextLevel` survives a call
that crosses at most one threshold and appends no achievement. -/
theorem awardPointsSeq_single (db : Store) (userId : Nat) (user : User) (c : AwardCall)
    (hfind : findById db userId = some user) :
    ∃ user1, findById (awardPointsSeq db userId [c]) userId = some user1 ∧
      (0 ≤ user.stats.experience → 0 ≤ user1.stats.experience) ∧
      user.stats.level ≤ user1.stats.level ∧
      (user.stats.experience < user.stats.experienceToNextLevel →
        user.stats.experience + pointsToAward c.action c.amount <
          user.stats.experienceToNextLevel + floor120 user.stats.experienceToNextLevel →
        user1.stats.achievements = user.stats.achievements →
        user1.stats.experience < user1.stats.experienceToNextLevel) := by
  cases hin : resolvesToInherited c.action c.amount with
  | true =>
    have hcall := awardPoints_inherited db userId user c.action c.amount c.now hfind hin
    refine ⟨user, ?_, fun h => h, le_refl _, fun h _ _ => h⟩
    simp only [awardPointsSeq, hcall]
    exact hfind
  | false =>
    obtain ⟨db1, r, user1, hcall, hfind1, hrest⟩ :=
      awardPoints_step db userId user c.action c.amount c.now hfind hin
    refine ⟨user1, ?_, hrest⟩
    simp only [awardPointsSeq, hcall]
    exact hfind1

theorem awardPointsSeq_invariant (userId : Nat) (calls : List AwardCall) :
    ∀ (db : Store) (user : User), findById db userId = some user →
      0 ≤ user.stats.experience →
      ∃ before, findById (awardPointsSeq db userId calls) userId = some before ∧
        0 ≤ before.stats.experience ∧ user.stats.level ≤ before.stats.level := by
  induction calls with
  | nil =>
    intro db user hfind hexp
    exact ⟨user, hfind, hexp, le_refl _⟩
  | cons d ds ih =>
    intro db user hfind hexp
    obtain ⟨user1, hfind1, hexp1, hlevel1, _⟩ := awardPointsSeq_single db userId user d hfind
    obtain ⟨before, hb, hbexp, hblevel⟩ :=
      ih (awardPointsSeq db userId [d]) user1 hfind1 (hexp1 hexp)
    refine ⟨before, ?_, hbexp, le_trans hlevel1 hblevel⟩
    rw [← awardPointsSeq_append userId [d] ds db] at hb
    exact hb

theorem POINTS_pos {action : Option String} {v : Int} (h : POINTS action = some v) : 0 < v := by
  unfold POINTS at h
  split at h <;> simp [STREAK_BONUS] at h <;> omega

theorem pointsToAward_of_pos (action : Option String) {n : Int} (h : 0 < n) :
    pointsToAward action (some n) = n := by
  simp [pointsToAward, jsOr, jsOrZero, ne_of_gt h]

theorem pointsToAward_of_neg (action : Option String) {n : Int} (h : n < 0) :
    pointsToAward action (some n) = n := by
  simp [pointsToAward, jsOr, jsOrZero, ne_of_lt h]

theorem pointsToAward_of_falsy (action : Option String) {amount : Option Int}
    (h : amount = none ∨ amount = some 0) :
    pointsToAward action amount = (POINTS action).getD 0 := by
  have hor : jsOr amount (POINTS action) = POINTS action := by
    rcases h with h | h <;> subst h <;> simp [jsOr]
  unfold pointsToAward
  rw [hor]
  cases hv : POINTS action with
  | none => rfl
  | some v => simp [jsOrZero, ne_of_gt (POINTS_pos hv)]

/-! ## Streak tracker lemmas -/

theorem setHours0_idem (tz t : Int) : setHours0 tz (setHours0 tz t) = setHours0 tz t := by
  unfold setHours0
  omega

/-- In a zone of fixed offset the two day functions agree. -/
theorem setHours0In_const (tz t : Int) : setHours0In (fun _ => tz) t = setHours0 tz t := by
  unfold setHours0In setHours0
  dsimp only
  omega

theorem updateStreak_missing (db : Store) (userId : Nat) (tz now : Int)
    (h : findById db userId = none) :
    updateStreak db userId tz now = Except.error "User not found" := by
  unfold updateStreak updateStreakAt
  rw [h]

/-- On a day that is not later than the day of the last report, `updateStreak`
writes nothing. -/
theorem updateStreak_same_day (db : Store) (userId : Nat) (user : User) (tz now d : Int)
    (hfind : findById db userId = some user) (hlast : user.stats.lastReportDate = some d)
    (hday : ¬ setHours0 tz d < setHours0 tz now) :
    updateStreak db userId tz now =
      Except.ok (db, { streak := user.stats.streak, longestStreak := user.stats.longestStreak }) := by
  unfold updateStreak updateStreakAt
  rw [hfind]
  simp [hlast, hday]

/-- On a new day `updateStreak` saves a document whose last report date is the
midnight of that day. -/
theorem updateStreak_new_day (db : Store) (userId : Nat) (user : User) (tz now : Int)
    (hfind : findById db userId = some user)
    (hnew : user.stats.lastReportDate = none ∨
      ∃ d, user.stats.lastReportDate = some d ∧ setHours0 tz d < setHours0 tz now) :
    ∃ user1 : User, user1._id = user._id ∧
      user1.stats.lastReportDate = some (setHours0 tz now) ∧
      updateStreak db userId tz now =
        Except.ok (save db user1,
          { streak := user1.stats.streak, longestStreak := user1.stats.longestStreak }) := by
  unfold updateStreak updateStreakAt
  rw [hfind]
  rcases hnew with h | ⟨d, h, hlt⟩
  · simp only [h, Option.map_none', if_true]
    refine ⟨_, ?_, ?_, rfl⟩ <;> rfl
  · simp only [h, Option.map_some', hlt, decide_True, if_true]
    refine ⟨_, ?_, ?_, rfl⟩ <;> rfl

/-! ## Progress reporter lemmas -/

theorem getUserProgress_missing (db : Store) (userId : Nat)
    (h : findById db userId = none) :
    getUserProgress db userId = Except.error "User not found" := by
  unfold getUserProgress
  rw [h]

/-! ## Claims about the level engine and the points ledger -/

/-- C1 (counterexample): a fresh account (experience 0, threshold 100) that is
awarded 250 points ends at level 2 with experience 150 and threshold 120, so
`experience < experienceToNextLevel` does not hold after the call. -/
theorem C1_counterexample :
    (0 ≤ defaultStats.experience ∧
      defaultStats.experience < defaultStats.experienceToNextLevel) ∧
    statsAfter (awardPoints newUserStore 1 none (some 250) 0) 1 =
      some { defaultStats with level := 2, experience := 150, experienceToNextLevel := 120,
                               totalPoints := 260 } ∧
    (statsAfter (awardPoints newUserStore 1 none (some 250) 0) 1).map
      (fun s => decide (s.experience < s.experienceToNextLevel)) = some false := by
  decide

/-- C1 (amended): for a stored record with `0 ≤ experience`, after every
sequence of `awardPoints` calls and one more call, the user is still stored,
experience is non-negative before and after the last call and the level after
it is at least the level before it; the bound `experience <
experienceToNextLevel` is kept by a call made while it holds, whose resolved
amount crosses at most one threshold and which appends no achievement. -/
theorem C1_awardPoints_invariant (db : Store) (userId : Nat) (user : User)
    (calls : List AwardCall) (c : AwardCall)
    (hfind : findById db userId = some user) (hexp : 0 ≤ user.stats.experience) :
    ∃ before after,
      findById (awardPointsSeq db userId calls) userId = some before ∧
      findById (awardPointsSeq db userId (calls ++ [c])) userId = some after ∧
      0 ≤ before.stats.experience ∧ 0 ≤ after.stats.experience ∧
      user.stats.level ≤ before.stats.level ∧ before.stats.level ≤ after.stats.level ∧
      (before.stats.experience < before.stats.experienceToNextLevel →
        before.stats.experience + pointsToAward c.action c.amount <
          before.stats.experienceToNextLevel + floor120 before.stats.experienceToNextLevel →
        after.stats.achievements = before.stats.achievements →
        after.stats.experience < after.stats.experienceToNextLevel) := by
  obtain ⟨before, hb, hbexp, hblevel⟩ :=
    awardPointsSeq_invariant userId calls db user hfind hexp
  obtain ⟨after, hfind1, hexp1, hlevel1, hbound⟩ :=
    awardPointsSeq_single (awardPointsSeq db userId calls) userId before c hb
  refine ⟨before, after, hb, ?_, hbexp, hexp1 hbexp, hblevel, hlevel1, hbound⟩
  rw [awardPointsSeq_append]
  exact hfind1

/-- C1 (witness): the amended invariant at a fresh account, after the award of
250 points followed by an award for a submitted report. -/
theorem C1_awardPoints_invariant_witness :
    ∃ before after,
      findById (awardPointsSeq newUserStore 1 [⟨none, some 250, 0⟩]) 1 = some before ∧
      findById (awardPointsSeq newUserStore 1
        ([⟨none, some 250, 0⟩] ++ [⟨some "REPORT_SUBMITTED", none, 0⟩])) 1 = some after ∧
      0 ≤ before.stats.experience ∧ 0 ≤ after.stats.experience ∧
      (⟨1, defaultStats, []⟩ : User).stats.level ≤ before.stats.level ∧
      before.stats.level ≤ after.stats.level ∧
      (before.stats.experience < before.stats.experienceToNextLevel →
        before.stats.experience + pointsToAward (some "REPORT_SUBMITTED") none <
          before.stats.experienceToNextLevel + floor120 before.stats.experienceToNextLevel →
        after.stats.achievements = before.stats.achievements →
        after.stats.experience < after.stats.experienceToNextLevel) :=
  C1_awardPoints_invariant newUserStore 1 ⟨1, defaultStats, []⟩ [⟨none, some 250, 0⟩]
    ⟨some "REPORT_SUBMITTED", none, 0⟩ (by decide) (by decide)

/-- C2 (counterexample): on level 1, experience 250, threshold 100,
`checkLevelUp` stops at level 2, experience 150, threshold 120, whereas the
repeated level-up step ends at level 3, experience 30, threshold 144. -/
theorem C2_counterexample :
    (checkLevelUp (singleStore stats250) ⟨1, stats250, []⟩ 0).2.1.stats =
      { stats250 with level := 2, experience := 150, experienceToNextLevel := 120,
                      totalPoints := 10 } ∧
    specLevelUpLoop 250 stats250 =
      { stats250 with level := 3, experience := 30, experienceToNextLevel := 144,
                      totalPoints := 30 } ∧
    (checkLevelUp (singleStore stats250) ⟨1, stats250, []⟩ 0).2.1.stats ≠
      specLevelUpLoop 250 stats250 := by
  have h1 : (checkLevelUp (singleStore stats250) ⟨1, stats250, []⟩ 0).2.1.stats =
      { stats250 with level := 2, experience := 150, experienceToNextLevel := 120,
                      totalPoints := 10 } := by decide
  have h2 : specLevelUpLoop 250 stats250 =
      { stats250 with level := 3, experience := 30, experienceToNextLevel := 144,
                      totalPoints := 30 } := by
    rw [show (250 : Nat) = 248 + 1 + 1 from rfl,
      specLevelUpLoop_step _ _ (by decide), specLevelUpLoop_step _ _ (by decide),
      specLevelUpLoop_stop _ _ (by decide)]
    decide
  refine ⟨h1, h2, ?_⟩
  rw [h1, h2]
  decide

/-- C2 (amended): `checkLevelUp` applies the level-up step at most once. For a
record whose next level is not 5, 10 or 25: it is left unchanged when
`experience < experienceToNextLevel`; it is the record after exactly one step
when `experience ≥ experienceToNextLevel`; and this is the state of the repeated
step (for any positive number of allowed iterations) when the threshold is
positive and `experience < experienceToNextLevel + floor(1.2 *
experienceToNextLevel)`. -/
theorem C2_checkLevelUp_single_step (db : Store) (user : User) (now : Int)
    (h5 : user.stats.level + 1 ≠ 5) (h10 : user.stats.level + 1 ≠ 10)
    (h25 : user.stats.level + 1 ≠ 25) :
    (user.stats.experience < user.stats.experienceToNextLevel →
      (checkLevelUp db user now).2.1.stats = user.stats) ∧
    (user.stats.experienceToNextLevel ≤ user.stats.experience →
      (checkLevelUp db user now).2.1.stats = specLevelUpStep user.stats) ∧
    (0 < user.stats.experienceToNextLevel →
      user.stats.experience <
        user.stats.experienceToNextLevel + floor120 user.stats.experienceToNextLevel →
      ∀ fuel : Nat,
        (checkLevelUp db user now).2.1.stats = specLevelUpLoop (fuel + 1) user.stats) := by
  have hstep : user.stats.experienceToNextLevel ≤ user.stats.experience →
      (checkLevelUp db user now).2.1.stats = specLevelUpStep user.stats := by
    intro hge
    rw [checkLevelUp_ge db user now hge, specLevelUpStep_eq_levelUp]
    dsimp only
    rw [checkAchievements_of_nil db _ _ now
      (candidates_level_nil { user with stats := levelUp user.stats } h5 h10 h25)]
  refine ⟨?_, hstep, ?_⟩
  · intro hlt
    rw [checkLevelUp_lt db user now hlt]
  · intro _ hone fuel
    by_cases hge : user.stats.experienceToNextLevel ≤ user.stats.experience
    · rw [hstep hge]
      have hstop : ¬ ((specLevelUpStep user.stats).experience ≥
          (specLevelUpStep user.stats).experienceToNextLevel) := by
        rw [specLevelUpStep_eq_levelUp]
        simp only [levelUp]
        omega
      cases fuel with
      | zero => simp [specLevelUpLoop, hge]
      | succ n => simp [specLevelUpLoop, hge, hstop]
    · rw [checkLevelUp_lt db user now (not_le.mp hge)]
      simp [specLevelUpLoop, hge]

/-- C2 (witness): the amended statement at level 1, experience 250, threshold
100, where the one step taken is not the state of the repeated step. -/
theorem C2_checkLevelUp_single_step_witness :
    (stats250.experience < stats250.experienceToNextLevel →
      (checkLevelUp (singleStore stats250) ⟨1, stats250, []⟩ 0).2.1.stats = stats250) ∧
    (stats250.experienceToNextLevel ≤ stats250.experience →
      (checkLevelUp (singleStore stats250) ⟨1, stats250, []⟩ 0).2.1.stats =
        specLevelUpStep stats250) ∧
    (0 < stats250.experienceToNextLevel →
      stats250.experience <
        stats250.experienceToNextLevel + floor120 stats250.experienceToNextLevel →
      ∀ fuel : Nat,
        (checkLevelUp (singleStore stats250) ⟨1, stats250, []⟩ 0).2.1.stats =
          specLevelUpLoop (fuel + 1) stats250) :=
  C2_checkLevelUp_single_step (singleStore stats250) ⟨1, stats250, []⟩ 0
    (by decide) (by decide) (by decide)

/-- C3: single level-up crossing. For a stored record at level `L` with `L + 1`
not 5, 10 or 25, experience `e`, threshold `t`, and an explicit amount `a > 0`
with `t ≤ e + a < t + floor(1.2 * t)`, `awardPoints(user, null, a)` stores level
`L + 1`, experience `e + a - t`, threshold `floor(1.2 * t)` and
`totalPoints + a + 10 * L`, changes nothing else, and returns `pointsAwarded = a`
with `newTotal` that final `totalPoints`. -/
theorem C3_single_level_up (db : Store) (userId : Nat) (user : User) (a : Int) (now : Int)
    (hfind : findById db userId = some user) (ha : 0 < a)
    (h5 : user.stats.level + 1 ≠ 5) (h10 : user.stats.level + 1 ≠ 10)
    (h25 : user.stats.level + 1 ≠ 25)
    (hlo : user.stats.experienceToNextLevel ≤ user.stats.experience + a)
    (_hhi : user.stats.experience + a <
      user.stats.experienceToNextLevel + floor120 user.stats.experienceToNextLevel) :
    awardPoints db userId none (some a) now =
      Except.ok
        (save db { user with stats := { user.stats with
            level := user.stats.level + 1,
            experience := user.stats.experience + a - user.stats.experienceToNextLevel,
            experienceToNextLevel := floor120 user.stats.experienceToNextLevel,
            totalPoints := user.stats.totalPoints + a + 10 * user.stats.level } },
         some { pointsAwarded := a,
                newTotal := user.stats.totalPoints + a + 10 * user.stats.level }) := by
  have hpts : pointsToAward none (some a) = a := by
    simp [pointsToAward, jsOr, jsOrZero, ne_of_gt ha]
  have hp : 0 < pointsToAward none (some a) := by rw [hpts]; exact ha
  rw [awardPoints_award db userId user none (some a) now hfind hp, hpts]
  have hge : ({ user with stats := addPoints user.stats a } : User).stats.experienceToNextLevel ≤
      ({ user with stats := addPoints user.stats a } : User).stats.experience := hlo
  rw [checkLevelUp_ge db _ now hge]
  dsimp only
  rw [checkAchievements_of_nil db _ _ now
    (candidates_level_nil { user with stats := levelUp (addPoints user.stats a) } h5 h10 h25)]
  simp only [levelUp, addPoints, mul_comm]

/-- C3 (witness): level 1, experience 95, threshold 100 and `a = 10` give level
2, experience 5, threshold 120, and a total of 20 points (10 awarded plus the
bonus 10). -/
theorem C3_single_level_up_witness :
    awardPoints (singleStore stats95) 1 none (some 10) 0 =
      Except.ok
        (save (singleStore stats95) ⟨1, { stats95 with
            level := 2, experience := 5, experienceToNextLevel := 120, totalPoints := 20 }, []⟩,
         some { pointsAwarded := 10, newTotal := 20 }) :=
  C3_single_level_up (singleStore stats95) 1 ⟨1, stats95, []⟩ 10 0 (by decide) (by decide)
    (by decide) (by decide) (by decide) (by decide) (by decide)

/-- C4: for a record with `experience ≥ 0` and `experienceToNextLevel ≥ 0`,
`checkLevelUp` does not decrease the level and leaves experience non-negative. -/
theorem C4_checkLevelUp_level_experience (db : Store) (user : User) (now : Int)
    (hexp : 0 ≤ user.stats.experience) (_hthr : 0 ≤ user.stats.experienceToNextLevel) :
    user.stats.level ≤ (checkLevelUp db user now).2.1.stats.level ∧
    0 ≤ (checkLevelUp db user now).2.1.stats.experience :=
  ⟨checkLevelUp_level_le db user now, checkLevelUp_experience_nonneg db user now hexp⟩

/-- C4 (witness): level 4, experience 130, threshold 100 with no achievements:
the level rises to 5 and experience ends at 130 - 100 + 100 (the achievement). -/
theorem C4_checkLevelUp_level_experience_witness :
    ({ defaultStats with level := 4, experience := 130 } : Stats).level ≤
      (checkLevelUp newUserStore ⟨1, { defaultStats with level := 4, experience := 130 }, []⟩
        0).2.1.stats.level ∧
    0 ≤ (checkLevelUp newUserStore ⟨1, { defaultStats with level := 4, experience := 130 }, []⟩
        0).2.1.stats.experience :=
  C4_checkLevelUp_level_experience newUserStore
    ⟨1, { defaultStats with level := 4, experience := 130 }, []⟩ 0 (by decide) (by decide)

/-- C5 (counterexample): with the known action `REPORT_SUBMITTED` (table value
10) and the explicit amount `-5`, the resolved amount is `-5`, not 10:
`awardPoints` returns `undefined` and the stored record is unchanged. -/
theorem C5_counterexample :
    POINTS (some "REPORT_SUBMITTED") = some 10 ∧
    pointsToAward (some "REPORT_SUBMITTED") (some (-5)) = -5 ∧
    pointsAwardedOf (awardPoints newUserStore 1 (some "REPORT_SUBMITTED") (some (-5)) 0) =
      some none ∧
    statsAfter (awardPoints newUserStore 1 (some "REPORT_SUBMITTED") (some (-5)) 0) 1 =
      some defaultStats := by
  decide

/-- C5 (amended): amount resolution in `awardPoints` for a stored user. An
explicit amount `n > 0` is awarded as is; an explicit amount `n < 0` awards
nothing (the call returns `undefined` and writes nothing); with no explicit
amount, or the explicit amount 0, the table value of the action is awarded for a
key of the table, nothing is awarded (the call returns `undefined`) for an
action that is neither a key of the table nor a name inherited from
`Object.prototype`, and for an inherited name the call throws. The table is
REPORT_SUBMITTED 10, REPORT_RESOLVED 25, DAILY_LOGIN 5, STREAK_BONUS 5,
CHALLENGE_COMPLETION 100, TEAM_CONTRIBUTION 15, SOCIAL_ACTION 2, and has no
other key. -/
theorem C5_amount_resolution (db : Store) (userId : Nat) (user : User)
    (action : Option String) (amount : Option Int) (now : Int)
    (hfind : findById db userId = some user) :
    (∀ n : Int, amount = some n → 0 < n →
      pointsAwardedOf (awardPoints db userId action amount now) = some (some n)) ∧
    (∀ n : Int, amount = some n → n < 0 →
      awardPoints db userId action amount now = Except.ok (db, none)) ∧
    ((amount = none ∨ amount = some 0) → ∀ v : Int, POINTS action = some v →
      pointsAwardedOf (awardPoints db userId action amount now) = some (some v)) ∧
    ((amount = none ∨ amount = some 0) → POINTS action = none →
      (∀ key ∈ inheritedKeys, action ≠ some key) →
      awardPoints db userId action amount now = Except.ok (db, none)) ∧
    ((amount = none ∨ amount = some 0) → (∃ key, action = some key ∧ key ∈ inheritedKeys) →
      awardPoints db userId action amount now = Except.error "User validation failed") ∧
    (POINTS (some "REPORT_SUBMITTED") = some 10 ∧ POINTS (some "REPORT_RESOLVED") = some 25 ∧
      POINTS (some "DAILY_LOGIN") = some 5 ∧ POINTS (some "STREAK_BONUS") = some 5 ∧
      POINTS (some "CHALLENGE_COMPLETION") = some 100 ∧
      POINTS (some "TEAM_CONTRIBUTION") = some 15 ∧ POINTS (some "SOCIAL_ACTION") = some 2) ∧
    (action ∉ [some "REPORT_SUBMITTED", some "REPORT_RESOLVED", some "DAILY_LOGIN",
        some "STREAK_BONUS", some "CHALLENGE_COMPLETION", some "TEAM_CONTRIBUTION",
        some "SOCIAL_ACTION"] → POINTS action = none) := by
  refine ⟨?_, ?_, ?_, ?_, ?_, by decide, ?_⟩
  · intro n hn hpos
    subst hn
    have hp : 0 < pointsToAward action (some n) := by
      rw [pointsToAward_of_pos action hpos]; exact hpos
    rw [awardPoints_award db userId user action (some n) now hfind hp,
      pointsToAward_of_pos action hpos]
    rfl
  · intro n hn hneg
    subst hn
    exact awardPoints_noop db userId user action (some n) now hfind
      (resolvesToInherited_of_truthy action (ne_of_lt hneg))
      (by rw [pointsToAward_of_neg action hneg]; omega)
  · intro hfalsy v hv
    have hpts : pointsToAward action amount = v := by
      rw [pointsToAward_of_falsy action hfalsy, hv]; rfl
    have hp : 0 < pointsToAward action amount := by rw [hpts]; exact POINTS_pos hv
    rw [awardPoints_award db userId user action amount now hfind hp, hpts]
    rfl
  · intro hfalsy hv hown
    exact awardPoints_noop db userId user action amount now hfind
      (resolvesToInherited_of_not_inherited action amount hown)
      (by rw [pointsToAward_of_falsy action hfalsy, hv]; decide)
  · intro hfalsy hinherited
    exact awardPoints_inherited db userId user action amount now hfind
      ((resolvesToInherited_iff action amount).mpr ⟨hfalsy, hinherited⟩)
  · intro hmem
    simp only [List.mem_cons, List.mem_singleton, List.not_mem_nil, or_false, not_or] at hmem
    obtain ⟨h1, h2, h3, h4, h5, h6, h7⟩ := hmem
    unfold POINTS
    split <;> first | rfl | contradiction

/-- C5 (witness): the amended resolution at a fresh account, action
`REPORT_SUBMITTED`, explicit amount 0: the table value 10 is awarded. -/
theorem C5_amount_resolution_witness :
    (∀ n : Int, some (0 : Int) = some n → 0 < n →
      pointsAwardedOf (awardPoints newUserStore 1 (some "REPORT_SUBMITTED") (some 0) 0) =
        some (some n)) ∧
    (∀ n : Int, some (0 : Int) = some n → n < 0 →
      awardPoints newUserStore 1 (some "REPORT_SUBMITTED") (some 0) 0 =
        Except.ok (newUserStore, none)) ∧
    ((some (0 : Int) = none ∨ some (0 : Int) = some 0) →
      ∀ v : Int, POINTS (some "REPORT_SUBMITTED") = some v →
      pointsAwardedOf (awardPoints newUserStore 1 (some "REPORT_SUBMITTED") (some 0) 0) =
        some (some v)) ∧
    ((some (0 : Int) = none ∨ some (0 : Int) = some 0) →
      POINTS (some "REPORT_SUBMITTED") = none →
      (∀ key ∈ inheritedKeys, some "REPORT_SUBMITTED" ≠ some key) →
      awardPoints newUserStore 1 (some "REPORT_SUBMITTED") (some 0) 0 =
        Except.ok (newUserStore, none)) ∧
    ((some (0 : Int) = none ∨ some (0 : Int) = some 0) →
      (∃ key, some "REPORT_SUBMITTED" = some key ∧ key ∈ inheritedKeys) →
      awardPoints newUserStore 1 (some "REPORT_SUBMITTED") (some 0) 0 =
        Except.error "User validation failed") ∧
    (POINTS (some "REPORT_SUBMITTED") = some 10 ∧ POINTS (some "REPORT_RESOLVED") = some 25 ∧
      POINTS (some "DAILY_LOGIN") = some 5 ∧ POINTS (some "STREAK_BONUS") = some 5 ∧
      POINTS (some "CHALLENGE_COMPLETION") = some 100 ∧
      POINTS (some "TEAM_CONTRIBUTION") = some 15 ∧ POINTS (some "SOCIAL_ACTION") = some 2) ∧
    (some "REPORT_SUBMITTED" ∉ [some "REPORT_SUBMITTED", some "REPORT_RESOLVED",
        some "DAILY_LOGIN", some "STREAK_BONUS", some "CHALLENGE_COMPLETION",
        some "TEAM_CONTRIBUTION", some "SOCIAL_ACTION"] →
      POINTS (some "REPORT_SUBMITTED") = none) :=
  C5_amount_resolution newUserStore 1 ⟨1, defaultStats, []⟩ (some "REPORT_SUBMITTED") (some 0) 0
    (by decide)

/-- C6 (counterexample): `toString` is not a key of the points table, yet
`awardPoints` with that action and no amount on a fresh account throws: the
lookup gives the function every object inherits, which passes the `<= 0` test
and is refused when the document is saved. -/
theorem C6_counterexample :
    POINTS (some "toString") = none ∧
    "toString" ∈ inheritedKeys ∧
    awardPoints newUserStore 1 (some "toString") none 0 =
      Except.error "User validation failed" ∧
    returned (awardPoints newUserStore 1 (some "toString") none 0) = none :=
  ⟨by decide, by decide, rfl, rfl⟩

/-- C6 (amended): for a stored user and no explicit amount, an action that is
neither a key of the points table nor a name inherited from `Object.prototype`
is a no-op: `awardPoints` does not throw, it returns (with `undefined`) and the
store, hence every field of the stored record, is what it was. For an inherited
name the call throws a validation error. -/
theorem C6_unknown_action_noop (db : Store) (userId : Nat) (user : User)
    (action : Option String) (now : Int)
    (hfind : findById db userId = some user) (hunknown : POINTS action = none) :
    ((∀ key ∈ inheritedKeys, action ≠ some key) →
      awardPoints db userId action none now = Except.ok (db, none) ∧
      statsAfter (awardPoints db userId action none now) userId = some user.stats) ∧
    ((∃ key, action = some key ∧ key ∈ inheritedKeys) →
      awardPoints db userId action none now = Except.error "User validation failed") := by
  constructor
  · intro hown
    have h := awardPoints_noop db userId user action none now hfind
      (resolvesToInherited_of_not_inherited action none hown)
      (by rw [pointsToAward_of_falsy action (Or.inl rfl), hunknown]; decide)
    refine ⟨h, ?_⟩
    rw [h]
    exact stats_of_findById hfind
  · intro hinherited
    exact awardPoints_inherited db userId user action none now hfind
      ((resolvesToInherited_iff action none).mpr ⟨Or.inl rfl, hinherited⟩)

/-- C6 (witness): the action `PLANT_TREE` on a fresh account. -/
theorem C6_unknown_action_noop_witness :
    ((∀ key ∈ inheritedKeys, some "PLANT_TREE" ≠ some key) →
      awardPoints newUserStore 1 (some "PLANT_TREE") none 0 = Except.ok (newUserStore, none) ∧
      statsAfter (awardPoints newUserStore 1 (some "PLANT_TREE") none 0) 1 =
        some (⟨1, defaultStats, []⟩ : User).stats) ∧
    ((∃ key, some "PLANT_TREE" = some key ∧ key ∈ inheritedKeys) →
      awardPoints newUserStore 1 (some "PLANT_TREE") none 0 =
        Except.error "User validation failed") :=
  C6_unknown_action_noop newUserStore 1 ⟨1, defaultStats, []⟩ (some "PLANT_TREE") 0
    (by decide) (by decide)

/-- C7 (counterexample): for an unknown action and no amount the resolved
amount is 0 and `awardPoints` returns `undefined`, not the object
`{ pointsAwarded: 0, newTotal: 0 }`. -/
theorem C7_counterexample :
    pointsToAward (some "PLANT_TREE") none = 0 ∧
    returned (awardPoints newUserStore 1 (some "PLANT_TREE") none 0) = some none ∧
    returned (awardPoints newUserStore 1 (some "PLANT_TREE") none 0) ≠
      some (some { pointsAwarded := 0, newTotal := defaultStats.totalPoints }) := by
  decide

/-- C7 (amended): when the resolved amount is a number `≤ 0`, `awardPoints` on a
stored user returns no result object (`undefined`) and writes nothing, so the
user's `totalPoints` is unchanged. -/
theorem C7_nonpositive_amount_returns_undefined (db : Store) (userId : Nat) (user : User)
    (action : Option String) (amount : Option Int) (now : Int)
    (hfind : findById db userId = some user)
    (hnumber : resolvesToInherited action amount = false)
    (hle : pointsToAward action amount ≤ 0) :
    returned (awardPoints db userId action amount now) = some none ∧
    awardPoints db userId action amount now = Except.ok (db, none) ∧
    (findById db userId).map (fun u => u.stats.totalPoints) = some user.stats.totalPoints := by
  have h := awardPoints_noop db userId user action amount now hfind hnumber hle
  refine ⟨?_, h, ?_⟩
  · rw [h]; rfl
  · rw [hfind]; rfl

/-- C7 (witness): a negative explicit amount with a known action. -/
theorem C7_nonpositive_amount_returns_undefined_witness :
    returned (awardPoints newUserStore 1 (some "DAILY_LOGIN") (some (-3)) 0) = some none ∧
    awardPoints newUserStore 1 (some "DAILY_LOGIN") (some (-3)) 0 =
      Except.ok (newUserStore, none) ∧
    (findById newUserStore 1).map (fun u => u.stats.totalPoints) =
      some (⟨1, defaultStats, []⟩ : User).stats.totalPoints :=
  C7_nonpositive_amount_returns_undefined newUserStore 1 ⟨1, defaultStats, []⟩
    (some "DAILY_LOGIN") (some (-3)) 0 (by decide) (by decide) (by decide)

/-- C8: when the store has no record for `userId`, each of `awardPoints` (any
action, any amount), `updateStreak` and `getUserProgress` throws
`User not found`; a thrown call yields no new store, so nothing is written. -/
theorem C8_user_not_found (db : Store) (userId : Nat) (action : Option String)
    (amount : Option Int) (tz now : Int) (hmissing : db userId = none) :
    awardPoints db userId action amount now = Except.error "User not found" ∧
    updateStreak db userId tz now = Except.error "User not found" ∧
    getUserProgress db userId = Except.error "User not found" :=
  ⟨awardPoints_missing db userId action amount now (findById_none hmissing),
   updateStreak_missing db userId tz now (findById_none hmissing),
   getUserProgress_missing db userId (findById_none hmissing)⟩

/-- C8 (witness): `_id` 2 in a store that only holds `_id` 1, with an unknown
action. -/
theorem C8_user_not_found_witness :
    awardPoints newUserStore 2 (some "PLANT_TREE") none 0 = Except.error "User not found" ∧
    updateStreak newUserStore 2 0 0 = Except.error "User not found" ∧
    getUserProgress newUserStore 2 = Except.error "User not found" :=
  C8_user_not_found newUserStore 2 (some "PLANT_TREE") none 0 0 (by decide)

/-- C9: award without level-up. For a stored record and a resolved amount
`a > 0` with `experience + a < experienceToNextLevel`, `awardPoints` stores the
record with `totalPoints` and `experience` each increased by `a` and every other
field (level, threshold, streak, longestStreak, totalReports, achievements, ...)
as before, and returns `pointsAwarded = a`, `newTotal = totalPoints + a`. -/
theorem C9_award_without_level_up (db : Store) (userId : Nat) (user : User)
    (action : Option String) (amount : Option Int) (now : Int)
    (hfind : findById db userId = some user)
    (hpos : 0 < pointsToAward action amount)
    (hlt : user.stats.experience + pointsToAward action amount <
      user.stats.experienceToNextLevel) :
    awardPoints db userId action amount now =
      Except.ok
        (save db { user with stats := { user.stats with
            totalPoints := user.stats.totalPoints + pointsToAward action amount,
            experience := user.stats.experience + pointsToAward action amount } },
         some { pointsAwarded := pointsToAward action amount,
                newTotal := user.stats.totalPoints + pointsToAward action amount }) := by
  rw [awardPoints_award db userId user action amount now hfind hpos]
  have hlt1 : ({ user with stats := addPoints user.stats (pointsToAward action amount) }
      : User).stats.experience <
      ({ user with stats := addPoints user.stats (pointsToAward action amount) }
      : User).stats.experienceToNextLevel := hlt
  rw [checkLevelUp_lt db _ now hlt1]
  rfl

/-- C9 (witness): a fresh account that submits a report: 10 points, 10
experience, no level-up. -/
theorem C9_award_without_level_up_witness :
    awardPoints newUserStore 1 (some "REPORT_SUBMITTED") none 0 =
      Except.ok
        (save newUserStore ⟨1, { defaultStats with totalPoints := 10, experience := 10 }, []⟩,
         some { pointsAwarded := 10, newTotal := 10 }) :=
  C9_award_without_level_up newUserStore 1 ⟨1, defaultStats, []⟩ (some "REPORT_SUBMITTED")
    none 0 (by decide) (by decide) (by decide)

/-- C10: streak same-day idempotence. For a stored record and two times of the
same calendar day, the first `updateStreak` returns, and the second one, run on
the store the first left, writes nothing and returns the same counters: every
stored field (streak, longestStreak, totalPoints, experience included) is what
it was after the first call. -/
theorem C10_updateStreak_same_day_idempotent (db : Store) (userId : Nat) (user : User)
    (tz now1 now2 : Int) (hfind : findById db userId = some user)
    (hday : setHours0 tz now1 = setHours0 tz now2) :
    ∃ db1 r, updateStreak db userId tz now1 = Except.ok (db1, r) ∧
      updateStreak db1 userId tz now2 = Except.ok (db1, r) ∧
      statsAfter (updateStreak db1 userId tz now2) userId =
        statsAfter (updateStreak db userId tz now1) userId := by
  have key : ∃ db1 r, updateStreak db userId tz now1 = Except.ok (db1, r) ∧
      updateStreak db1 userId tz now2 = Except.ok (db1, r) := by
    by_cases hnew : user.stats.lastReportDate = none ∨
        ∃ d, user.stats.lastReportDate = some d ∧ setHours0 tz d < setHours0 tz now1
    · obtain ⟨user1, hid, hlast, hcall⟩ := updateStreak_new_day db userId user tz now1 hfind hnew
      refine ⟨_, _, hcall, ?_⟩
      have hfind1 : findById (save db user1) userId = some user1 := by
        have h := findById_save db user1
        rw [hid, findById_id hfind] at h
        exact h
      refine updateStreak_same_day (save db user1) userId user1 tz now2 (setHours0 tz now1)
        hfind1 hlast ?_
      rw [setHours0_idem, hday]
      exact lt_irrefl _
    · cases hlast : user.stats.lastReportDate with
      | none => exact absurd (Or.inl hlast) hnew
      | some d =>
        have hnlt : ¬ setHours0 tz d < setHours0 tz now1 :=
          fun hlt => hnew (Or.inr ⟨d, hlast, hlt⟩)
        refine ⟨_, _, updateStreak_same_day db userId user tz now1 d hfind hlast hnlt, ?_⟩
        exact updateStreak_same_day db userId user tz now2 d hfind hlast (by rw [← hday]; exact hnlt)
  obtain ⟨db1, r, h1, h2⟩ := key
  exact ⟨db1, r, h1, h2, by rw [h1, h2]⟩

/-- C10 (witness): a user with streak 2 whose last report was the day before;
the first call is made at 01:00 and the second at 23:00 of the same day. -/
theorem C10_updateStreak_same_day_idempotent_witness :
    ∃ db1 r,
      updateStreak (singleStore statsDay0) 1 0 90000000 = Except.ok (db1, r) ∧
      updateStreak db1 1 0 169200000 = Except.ok (db1, r) ∧
      statsAfter (updateStreak db1 1 0 169200000) 1 =
        statsAfter (updateStreak (singleStore statsDay0) 1 0 90000000) 1 :=
  C10_updateStreak_same_day_idempotent (singleStore statsDay0) 1 ⟨1, statsDay0, []⟩
    0 90000000 169200000 (by decide) (by decide)

/-! ## More streak tracker lemmas -/

theorem setHours0_sub_day (tz t : Int) :
    setHours0 tz (setHours0 tz t - 86400000) = setHours0 tz t - 86400000 := by
  unfold setHours0
  omega

/-- On a new day `updateStreak` saves `streakStats` with the streak it chose. -/
theorem updateStreak_first (db : Store) (userId : Nat) (user : User) (tz now : Int)
    (hfind : findById db userId = some user) (hlast : user.stats.lastReportDate = none) :
    updateStreak db userId tz now =
      Except.ok
        (save db { user with
            stats := streakStats user.stats (setHours0 tz now) (user.stats.streak + 1) },
         { streak := user.stats.streak + 1,
           longestStreak := (streakStats user.stats (setHours0 tz now)
             (user.stats.streak + 1)).longestStreak }) := by
  unfold updateStreak updateStreakAt
  rw [hfind]
  simp only [hlast, Option.map_none', if_true]
  rfl

theorem updateStreak_consecutive (db : Store) (userId : Nat) (user : User) (tz now d : Int)
    (hfind : findById db userId = some user) (hlast : user.stats.lastReportDate = some d)
    (hday : setHours0 tz d = setHours0 tz now - 86400000) :
    updateStreak db userId tz now =
      Except.ok
        (save db { user with
            stats := streakStats user.stats (setHours0 tz now) (user.stats.streak + 1) },
         { streak := user.stats.streak + 1,
           longestStreak := (streakStats user.stats (setHours0 tz now)
             (user.stats.streak + 1)).longestStreak }) := by
  have hlt : setHours0 tz now - 86400000 < setHours0 tz now := by omega
  unfold updateStreak updateStreakAt
  rw [hfind]
  simp only [hlast, Option.map_some', hday, hlt, decide_True, if_true]
  rfl

theorem updateStreak_broken (db : Store) (userId : Nat) (user : User) (tz now d : Int)
    (hfind : findById db userId = some user) (hlast : user.stats.lastReportDate = some d)
    (hlt : setHours0 tz d < setHours0 tz now)
    (hne : setHours0 tz d ≠ setHours0 tz now - 86400000) :
    updateStreak db userId tz now =
      Except.ok
        (save db { user with stats := streakStats user.stats (setHours0 tz now) 1 },
         { streak := 1,
           longestStreak := (streakStats user.stats (setHours0 tz now) 1).longestStreak }) := by
  unfold updateStreak updateStreakAt
  rw [hfind]
  simp only [hlast, Option.map_some', hlt, hne, decide_True, decide_False, if_true]
  rfl

theorem findById_save_of_id (db : Store) (user : User) (userId : Nat)
    (h : user._id = userId) : findById (save db user) userId = some user := by
  subst h
  exact findById_save db user

/-- One `updateStreak` call on a stored user: it returns, the user is still
stored, and the stored stats are either untouched or `streakStats` for a new
streak that is the old one plus 1, or 1. -/
theorem updateStreak_step (db : Store) (userId : Nat) (user : User) (tz now : Int)
    (hfind : findById db userId = some user) :
    ∃ db1 r user1, updateStreak db userId tz now = Except.ok (db1, r) ∧
      findById db1 userId = some user1 ∧
      (user1.stats = user.stats ∨
        ∃ streak, (streak = user.stats.streak + 1 ∨ streak = 1) ∧
          user1.stats = streakStats user.stats (setHours0 tz now) streak) := by
  have hid := findById_id hfind
  cases hlast : user.stats.lastReportDate with
  | none =>
    exact ⟨_, _, _, updateStreak_first db userId user tz now hfind hlast,
      findById_save_of_id db _ userId hid, Or.inr ⟨_, Or.inl rfl, rfl⟩⟩
  | some d =>
    by_cases hlt : setHours0 tz d < setHours0 tz now
    · by_cases hday : setHours0 tz d = setHours0 tz now - 86400000
      · exact ⟨_, _, _, updateStreak_consecutive db userId user tz now d hfind hlast hday,
          findById_save_of_id db _ userId hid, Or.inr ⟨_, Or.inl rfl, rfl⟩⟩
      · exact ⟨_, _, _, updateStreak_broken db userId user tz now d hfind hlast hlt hday,
          findById_save_of_id db _ userId hid, Or.inr ⟨_, Or.inr rfl, rfl⟩⟩
    · exact ⟨_, _, user, updateStreak_same_day db userId user tz now d hfind hlast hlt,
        hfind, Or.inl rfl⟩

theorem streakStats_longestStreak (stats : Stats) (today streak : Int) :
    (streakStats stats today streak).longestStreak = max stats.longestStreak streak := by
  simp only [streakStats]
  rw [max_def]
  split_ifs <;> omega

theorem updateStreakSeq_invariant (userId : Nat) (tz now : Int) (nows : List Int) :
    ∀ (db : Store) (user : User), findById db userId = some user →
      ∃ before, findById (updateStreakSeq db userId tz nows) userId = some before ∧
        user.stats.longestStreak ≤ before.stats.longestStreak ∧
        updateStreakSeq db userId tz (nows ++ [now]) =
          updateStreakSeq (updateStreakSeq db userId tz nows) userId tz [now] := by
  induction nows with
  | nil =>
    intro db user hfind
    exact ⟨user, hfind, le_refl _, rfl⟩
  | cons t ts ih =>
    intro db user hfind
    obtain ⟨db1, r, user1, hcall, hfind1, hstats⟩ := updateStreak_step db userId user tz t hfind
    obtain ⟨before, hb, hle, happ⟩ := ih db1 user1 hfind1
    have hle1 : user.stats.longestStreak ≤ user1.stats.longestStreak := by
      rcases hstats with h | ⟨streak, _, h⟩
      · rw [h]
      · rw [h, streakStats_longestStreak]
        exact le_max_left _ _
    refine ⟨before, ?_, le_trans hle1 hle, ?_⟩
    · simp only [updateStreakSeq, hcall]
      exact hb
    · simp only [List.cons_append, updateStreakSeq, hcall]
      exact happ

/-! ## Claims about the streak tracker -/

/-- C11: streak break. For a stored record whose last activity day is two or
more calendar days before the event day, `updateStreak` stores streak 1 whatever
the streak was, pays no bonus (`totalPoints` and `experience` are as before),
and sets the last activity date to the event day. -/
theorem C11_streak_break (db : Store) (userId : Nat) (user : User) (tz now d : Int)
    (hfind : findById db userId = some user) (hlast : user.stats.lastReportDate = some d)
    (hgap : setHours0 tz d + 2 * 86400000 ≤ setHours0 tz now) :
    updateStreak db userId tz now =
      Except.ok
        (save db { user with stats := { user.stats with
            streak := 1,
            lastReportDate := some (setHours0 tz now),
            longestStreak := if 1 > user.stats.longestStreak then 1
                             else user.stats.longestStreak } },
         { streak := 1,
           longestStreak := if 1 > user.stats.longestStreak then 1
                            else user.stats.longestStreak }) := by
  rw [updateStreak_broken db userId user tz now d hfind hlast (by omega) (by omega)]
  simp [streakStats]

/-- C11 (witness): last activity on day 1, event on day 3, previous streak 5:
the streak is reset to 1 and no points are added. -/
theorem C11_streak_break_witness :
    updateStreak (singleStore statsDay1) 1 0 259200000 =
      Except.ok
        (save (singleStore statsDay1) ⟨1, { statsDay1 with
            streak := 1, lastReportDate := some 259200000, longestStreak := 5 }, []⟩,
         { streak := 1, longestStreak := 5 }) :=
  C11_streak_break (singleStore statsDay1) 1 ⟨1, statsDay1, []⟩ 0 259200000 86400000
    (by decide) (by decide) (by decide)

/-- C12 (counterexample): a record with no last activity date and streak 3 ends
with streak 4 and a bonus of 20 points, not with streak 1 and no bonus. -/
theorem C12_counterexample :
    statsNoDate.lastReportDate = none ∧
    statsAfter (updateStreak (singleStore statsNoDate) 1 0 0) 1 =
      some { statsNoDate with streak := 4, longestStreak := 4, lastReportDate := some 0,
                              totalPoints := 20, experience := 20 } ∧
    (statsAfter (updateStreak (singleStore statsNoDate) 1 0 0) 1).map
      (fun s => decide (s.streak = 1)) = some false := by
  decide

/-- C12 (amended): for a stored record with no last activity date,
`updateStreak` adds 1 to the stored streak `s`. With `s = 0` (the schema
default) the streak becomes exactly 1 and no bonus is paid; with `s ≥ 1` it
becomes `s + 1` and `(s + 1) * 5` is added to `totalPoints` and `experience`. -/
theorem C12_first_activity (db : Store) (userId : Nat) (user : User) (tz now : Int)
    (hfind : findById db userId = some user) (hlast : user.stats.lastReportDate = none) :
    (user.stats.streak = 0 →
      updateStreak db userId tz now =
        Except.ok
          (save db { user with stats := { user.stats with
              streak := 1,
              lastReportDate := some (setHours0 tz now),
              longestStreak := if 1 > user.stats.longestStreak then 1
                               else user.stats.longestStreak } },
           { streak := 1,
             longestStreak := if 1 > user.stats.longestStreak then 1
                              else user.stats.longestStreak })) ∧
    (1 ≤ user.stats.streak →
      updateStreak db userId tz now =
        Except.ok
          (save db { user with stats := { user.stats with
              streak := user.stats.streak + 1,
              lastReportDate := some (setHours0 tz now),
              longestStreak := if user.stats.streak + 1 > user.stats.longestStreak
                               then user.stats.streak + 1 else user.stats.longestStreak,
              totalPoints := user.stats.totalPoints + (user.stats.streak + 1) * 5,
              experience := user.stats.experience + (user.stats.streak + 1) * 5 } },
           { streak := user.stats.streak + 1,
             longestStreak := if user.stats.streak + 1 > user.stats.longestStreak
                              then user.stats.streak + 1 else user.stats.longestStreak })) := by
  constructor
  · intro h0
    rw [updateStreak_first db userId user tz now hfind hlast]
    simp [streakStats, h0]
  · intro h1
    have hgt : user.stats.streak + 1 > 1 := by omega
    rw [updateStreak_first db userId user tz now hfind hlast]
    simp [streakStats, hgt, STREAK_BONUS]

/-- C12 (witness): the amended statement at a fresh account (streak 0, no
date): the streak becomes 1. -/
theorem C12_first_activity_witness :
    (defaultStats.streak = 0 →
      updateStreak newUserStore 1 0 0 =
        Except.ok
          (save newUserStore ⟨1, { defaultStats with
              streak := 1, lastReportDate := some 0, longestStreak := 1 }, []⟩,
           { streak := 1, longestStreak := 1 })) ∧
    (1 ≤ defaultStats.streak →
      updateStreak newUserStore 1 0 0 =
        Except.ok
          (save newUserStore ⟨1, { defaultStats with
              streak := 1, lastReportDate := some 0, longestStreak := 1,
              totalPoints := 5, experience := 5 }, []⟩,
           { streak := 1, longestStreak := 1 })) :=
  C12_first_activity newUserStore 1 ⟨1, defaultStats, []⟩ 0 0 (by decide) (by decide)

/-- Streak continuation with bonus where the midnights of the two days are
86400000 ms apart (every pair of consecutive days in a zone of fixed offset).
For a stored record whose last activity day starts exactly 86400000 ms before
the event day: when the streak is `s ≥ 1`, `updateStreak` stores streak `s + 1`, adds `(s + 1) * 5` to both
`totalPoints` and `experience`, and raises `longestStreak` to `s + 1` if it was
lower; when the resulting streak is 1 (`s = 0`) nothing is added. -/
theorem updateStreak_continuation (db : Store) (userId : Nat) (user : User) (tz now d : Int)
    (hfind : findById db userId = some user) (hlast : user.stats.lastReportDate = some d)
    (hday : setHours0 tz d + 86400000 = setHours0 tz now) :
    (1 ≤ user.stats.streak →
      updateStreak db userId tz now =
        Except.ok
          (save db { user with stats := { user.stats with
              streak := user.stats.streak + 1,
              lastReportDate := some (setHours0 tz now),
              longestStreak := if user.stats.streak + 1 > user.stats.longestStreak
                               then user.stats.streak + 1 else user.stats.longestStreak,
              totalPoints := user.stats.totalPoints + (user.stats.streak + 1) * 5,
              experience := user.stats.experience + (user.stats.streak + 1) * 5 } },
           { streak := user.stats.streak + 1,
             longestStreak := if user.stats.streak + 1 > user.stats.longestStreak
                              then user.stats.streak + 1 else user.stats.longestStreak })) ∧
    (user.stats.streak = 0 →
      updateStreak db userId tz now =
        Except.ok
          (save db { user with stats := { user.stats with
              streak := 1,
              lastReportDate := some (setHours0 tz now),
              longestStreak := if 1 > user.stats.longestStreak then 1
                               else user.stats.longestStreak } },
           { streak := 1,
             longestStreak := if 1 > user.stats.longestStreak then 1
                              else user.stats.longestStreak })) := by
  have hcall := updateStreak_consecutive db userId user tz now d hfind hlast (by omega)
  constructor
  · intro h1
    have hgt : user.stats.streak + 1 > 1 := by omega
    rw [hcall]
    simp [streakStats, hgt, STREAK_BONUS]
  · intro h0
    rw [hcall]
    simp [streakStats, h0]

/-- Streak 9 with the last report the day before (zone UTC) becomes 10,
the bonus is 50, and `longestStreak` rises from 9 to 10. -/
theorem updateStreak_continuation_streak9 :
    (1 ≤ statsStreak9.streak →
      updateStreak (singleStore statsStreak9) 1 0 90000000 =
        Except.ok
          (save (singleStore statsStreak9) ⟨1, { statsStreak9 with
              streak := 10, lastReportDate := some 86400000, longestStreak := 10,
              totalPoints := 50, experience := 50 }, []⟩,
           { streak := 10, longestStreak := 10 })) ∧
    (statsStreak9.streak = 0 →
      updateStreak (singleStore statsStreak9) 1 0 90000000 =
        Except.ok
          (save (singleStore statsStreak9) ⟨1, { statsStreak9 with
              streak := 1, lastReportDate := some 86400000, longestStreak := 9 }, []⟩,
           { streak := 1, longestStreak := 9 })) :=
  updateStreak_continuation (singleStore statsStreak9) 1 ⟨1, statsStreak9, []⟩ 0 90000000 0
    (by decide) (by decide) (by decide)

/-- C13 (the code at the failing input): on a server in America/New_York the
local midnights of 8 and 9 March 2026 are 23 hours apart (daylight time starts
on 8 March). A user who reported on 7 March and reports on 8 March at noon gets
streak 2; when that user reports again on 9 March at 10:00, the day after,
`updateStreak` takes the branch commented `Streak broken`: the streak is set to
1 and no bonus is paid, where a continuation gives streak 3 and a bonus of 15. -/
theorem C13_streak_reset_across_dst :
    setHours0In offsetNewYork 1772985600000 = 1772946000000 ∧
    setHours0In offsetNewYork 1773064800000 = 1773028800000 ∧
    (1773028800000 : Int) - 1772946000000 = 82800000 ∧
    statsAfter (updateStreakAt (setHours0In offsetNewYork) (singleStore statsNewYorkMarch7) 1
      1772985600000) 1 = some statsNewYorkMarch8 ∧
    statsAfter (updateStreakAt (setHours0In offsetNewYork) (singleStore statsNewYorkMarch8) 1
      1773064800000) 1 =
      some { statsNewYorkMarch8 with streak := 1, lastReportDate := some 1773028800000 } ∧
    returned (updateStreakAt (setHours0In offsetNewYork) (singleStore statsNewYorkMarch8) 1
      1773064800000) = some { streak := 1, longestStreak := 2 } := by
  decide

/-- C14: monotonic `longestStreak`. For a stored record, after every sequence
of `updateStreak` calls (at arbitrary times) and one more call, the user is
still stored, `longestStreak` after the last call is at least its value before
that call (and at least the initial value), and when that call changed the
streak, `longestStreak` is the maximum of its previous value and the new
streak. -/
theorem C14_longestStreak_monotone (db : Store) (userId : Nat) (user : User) (tz : Int)
    (nows : List Int) (now : Int) (hfind : findById db userId = some user) :
    ∃ before after,
      findById (updateStreakSeq db userId tz nows) userId = some before ∧
      findById (updateStreakSeq db userId tz (nows ++ [now])) userId = some after ∧
      user.stats.longestStreak ≤ before.stats.longestStreak ∧
      before.stats.longestStreak ≤ after.stats.longestStreak ∧
      (after.stats.streak ≠ before.stats.streak →
        after.stats.longestStreak = max before.stats.longestStreak after.stats.streak) := by
  obtain ⟨before, hb, hle, happ⟩ := updateStreakSeq_invariant userId tz now nows db user hfind
  obtain ⟨db1, r, after, hcall, hfind1, hstats⟩ :=
    updateStreak_step (updateStreakSeq db userId tz nows) userId before tz now hb
  refine ⟨before, after, hb, ?_, hle, ?_, ?_⟩
  · rw [happ]
    simp only [updateStreakSeq, hcall]
    exact hfind1
  · rcases hstats with h | ⟨streak, _, h⟩
    · rw [h]
    · rw [h, streakStats_longestStreak]
      exact le_max_left _ _
  · intro hchanged
    rcases hstats with h | ⟨streak, _, h⟩
    · rw [h] at hchanged
      exact absurd rfl hchanged
    · rw [h, streakStats_longestStreak]
      rfl

/-- C14 (witness): a user with streak 9 reports on the next day and then two
days after that. -/
theorem C14_longestStreak_monotone_witness :
    ∃ before after,
      findById (updateStreakSeq (singleStore statsStreak9) 1 0 [90000000]) 1 = some before ∧
      findById (updateStreakSeq (singleStore statsStreak9) 1 0 ([90000000] ++ [270000000])) 1 =
        some after ∧
      (⟨1, statsStreak9, []⟩ : User).stats.longestStreak ≤ before.stats.longestStreak ∧
      before.stats.longestStreak ≤ after.stats.longestStreak ∧
      (after.stats.streak ≠ before.stats.streak →
        after.stats.longestStreak = max before.stats.longestStreak after.stats.streak) :=
  C14_longestStreak_monotone (singleStore statsStreak9) 1 ⟨1, statsStreak9, []⟩ 0 [90000000]
    270000000 (by decide)

/-- C15: `longestStreak ≥ streak ≥ 0` is kept by `updateStreak`. For a stored
record that satisfies it, the call returns, the user is still stored, and the
stored record satisfies it again, whatever the event time. -/
theorem C15_streak_invariant (db : Store) (userId : Nat) (user : User) (tz now : Int)
    (hfind : findById db userId = some user)
    (hls : user.stats.streak ≤ user.stats.longestStreak) (hs : 0 ≤ user.stats.streak) :
    ∃ db1 r user1, updateStreak db userId tz now = Except.ok (db1, r) ∧
      findById db1 userId = some user1 ∧
      user1.stats.streak ≤ user1.stats.longestStreak ∧ 0 ≤ user1.stats.streak := by
  obtain ⟨db1, r, user1, hcall, hfind1, hstats⟩ := updateStreak_step db userId user tz now hfind
  refine ⟨db1, r, user1, hcall, hfind1, ?_⟩
  rcases hstats with h | ⟨streak, hstreak, h⟩
  · rw [h]
    exact ⟨hls, hs⟩
  · rw [h, streakStats_longestStreak]
    refine ⟨le_max_right _ _, ?_⟩
    simp only [streakStats]
    omega

/-- C15 (witness): streak 9, longest 9, reporting on the next day. -/
theorem C15_streak_invariant_witness :
    ∃ db1 r user1, updateStreak (singleStore statsStreak9) 1 0 90000000 = Except.ok (db1, r) ∧
      findById db1 1 = some user1 ∧
      user1.stats.streak ≤ user1.stats.longestStreak ∧ 0 ≤ user1.stats.streak :=
  C15_streak_invariant (singleStore statsStreak9) 1 ⟨1, statsStreak9, []⟩ 0 90000000
    (by decide) (by decide) (by decide)

/-- C16 (the code at the failing input): a user with streak 2 and no
achievements reports on the day after the last report. `updateStreak` stores
streak 3 and the bonus 15, and the achievements stay empty: `streak_3` is not
unlocked and its 30 points are not added. -/
theorem C16_updateStreak_unlocks_nothing :
    statsDay0.achievements = [] ∧ statsDay0.streak = 2 ∧
    statsAfter (updateStreak (singleStore statsDay0) 1 0 90000000) 1 =
      some { statsDay0 with streak := 3, longestStreak := 3, lastReportDate := some 86400000,
                            totalPoints := 15, experience := 15 } ∧
    (statsAfter (updateStreak (singleStore statsDay0) 1 0 90000000) 1).map
      (fun s => s.achievements.any (fun r => r.id == "streak_3")) = some false := by
  decide

/-! ## More achievement evaluator lemmas -/

theorem any_id_iff (stats : Stats) (a : Achievement) :
    stats.achievements.any (fun r => r.id == a.id) = true ↔ a.id ∈ achievementIds stats := by
  simp only [achievementIds, List.any_eq_true, List.mem_map, beq_iff_eq]

theorem unlock_of_mem (now : Int) (s : Stats) (a : Achievement)
    (h : a.id ∈ achievementIds s) : unlock now s a = s := by
  unfold unlock
  simp [(any_id_iff s a).mpr h]

theorem unlock_of_not_mem (now : Int) (s : Stats) (a : Achievement)
    (h : a.id ∉ achievementIds s) :
    unlock now s a =
      { s with
        achievements := s.achievements ++ [recordOf now a],
        totalPoints := s.totalPoints + a.points,
        experience := s.experience + a.points } := by
  have hany : ¬ (s.achievements.any (fun r => r.id == a.id) = true) :=
    fun hc => h ((any_id_iff s a).mp hc)
  unfold unlock
  simp only [hany, if_false]
  rfl

theorem unlock_totalReports (now : Int) (s : Stats) (a : Achievement) :
    (unlock now s a).totalReports = s.totalReports := by
  unfold unlock
  dsimp only
  split <;> rfl

theorem unlock_streak (now : Int) (s : Stats) (a : Achievement) :
    (unlock now s a).streak = s.streak := by
  unfold unlock
  dsimp only
  split <;> rfl

theorem foldl_unlock_totalReports (now : Int) (l : List Achievement) (s : Stats) :
    (l.foldl (unlock now) s).totalReports = s.totalReports := by
  induction l generalizing s with
  | nil => rfl
  | cons a l ih => rw [List.foldl_cons, ih, unlock_totalReports]

theorem foldl_unlock_streak (now : Int) (l : List Achievement) (s : Stats) :
    (l.foldl (unlock now) s).streak = s.streak := by
  induction l generalizing s with
  | nil => rfl
  | cons a l ih => rw [List.foldl_cons, ih, unlock_streak]

/-- The loop of `checkAchievements` only appends: the appended records have
pairwise distinct ids that were not recorded before, each is the record of one
of the candidates, and their points are what `totalPoints` and `experience`
grow by. -/
theorem foldl_unlock_appends (now : Int) (l : List Achievement) (s : Stats) :
    ∃ added : List AchievementRecord,
      (l.foldl (unlock now) s).achievements = s.achievements ++ added ∧
      (added.map (fun r => r.id)).Nodup ∧
      (∀ r ∈ added, r.id ∉ achievementIds s) ∧
      (∀ r ∈ added, ∃ a ∈ l, r = recordOf now a) ∧
      (l.foldl (unlock now) s).totalPoints = s.totalPoints + (added.map (fun r => r.points)).sum ∧
      (l.foldl (unlock now) s).experience = s.experience + (added.map (fun r => r.points)).sum := by
  induction l generalizing s with
  | nil => exact ⟨[], by simp, by simp, by simp, by simp, by simp, by simp⟩
  | cons a l ih =>
    rw [List.foldl_cons]
    by_cases hmem : a.id ∈ achievementIds s
    · rw [unlock_of_mem now s a hmem]
      obtain ⟨added, h1, h2, h3, h4, h5, h6⟩ := ih s
      exact ⟨added, h1, h2, h3,
        fun r hr => (h4 r hr).elim fun b hb => ⟨b, List.mem_cons_of_mem a hb.1, hb.2⟩, h5, h6⟩
    · rw [unlock_of_not_mem now s a hmem]
      obtain ⟨added, h1, h2, h3, h4, h5, h6⟩ := ih
        { s with
          achievements := s.achievements ++ [recordOf now a],
          totalPoints := s.totalPoints + a.points,
          experience := s.experience + a.points }
      have hids : ∀ r ∈ added, r.id ≠ a.id ∧ r.id ∉ achievementIds s := by
        intro r hr
        have h := h3 r hr
        simp only [achievementIds, List.map_append, List.mem_append, List.map_cons, List.map_nil,
          List.mem_singleton, recordOf, not_or] at h
        exact ⟨h.2, h.1⟩
      refine ⟨recordOf now a :: added, ?_, ?_, ?_, ?_, ?_, ?_⟩
      · rw [h1]
        simp
      · rw [List.map_cons, List.nodup_cons]
        refine ⟨?_, h2⟩
        intro hin
        obtain ⟨r, hr, hrid⟩ := List.mem_map.mp hin
        exact (hids r hr).1 hrid
      · intro r hr
        rcases List.mem_cons.mp hr with h | h
        · rw [h]
          exact hmem
        · exact (hids r h).2
      · intro r hr
        rcases List.mem_cons.mp hr with h | h
        · exact ⟨a, List.mem_cons_self a l, h⟩
        · obtain ⟨b, hb, hrb⟩ := h4 r h
          exact ⟨b, List.mem_cons_of_mem a hb, hrb⟩
      · rw [h5]
        simp only [List.map_cons, List.sum_cons, recordOf]
        omega
      · rw [h6]
        simp only [List.map_cons, List.sum_cons, recordOf]
        omega

theorem unlock_ids_subset (now : Int) (s : Stats) (a : Achievement) {x : String}
    (h : x ∈ achievementIds s) : x ∈ achievementIds (unlock now s a) := by
  by_cases hmem : a.id ∈ achievementIds s
  · rw [unlock_of_mem now s a hmem]
    exact h
  · rw [unlock_of_not_mem now s a hmem]
    simp only [achievementIds, List.map_append, List.mem_append]
    exact Or.inl h

theorem unlock_mem_ids (now : Int) (s : Stats) (a : Achievement) :
    a.id ∈ achievementIds (unlock now s a) := by
  by_cases hmem : a.id ∈ achievementIds s
  · rw [unlock_of_mem now s a hmem]
    exact hmem
  · rw [unlock_of_not_mem now s a hmem]
    simp [achievementIds, recordOf]

theorem foldl_unlock_ids_subset (now : Int) (l : List Achievement) (s : Stats) {x : String}
    (h : x ∈ achievementIds s) : x ∈ achievementIds (l.foldl (unlock now) s) := by
  induction l generalizing s with
  | nil => exact h
  | cons a l ih =>
    rw [List.foldl_cons]
    exact ih _ (unlock_ids_subset now s a h)

theorem foldl_unlock_mem_ids (now : Int) (l : List Achievement) (s : Stats) {a : Achievement}
    (h : a ∈ l) : a.id ∈ achievementIds (l.foldl (unlock now) s) := by
  induction l generalizing s with
  | nil => exact absurd h (List.not_mem_nil a)
  | cons b l ih =>
    rw [List.foldl_cons]
    rcases List.mem_cons.mp h with hb | hl
    · rw [hb]
      exact foldl_unlock_ids_subset now l _ (unlock_mem_ids now s b)
    · exact ih _ hl

theorem foldl_unlock_of_all_mem (now : Int) (l : List Achievement) (s : Stats)
    (h : ∀ a ∈ l, a.id ∈ achievementIds s) : l.foldl (unlock now) s = s := by
  induction l with
  | nil => rfl
  | cons a l ih =>
    rw [List.foldl_cons, unlock_of_mem now s a (h a (List.mem_cons_self a l))]
    exact ih (fun b hb => h b (List.mem_cons_of_mem a hb))

theorem candidates_congr (u v : User) (trigger : Option String)
    (h1 : v.stats.totalReports = u.stats.totalReports) (h2 : v.stats.streak = u.stats.streak)
    (h3 : v.stats.level = u.stats.level) (h4 : v.followers = u.followers) :
    candidates v trigger = candidates u trigger := by
  unfold candidates
  rw [h1, h2, h3, h4]

theorem candidates_checkAchievements (db : Store) (user : User) (trigger t : Option String)
    (now : Int) :
    candidates (checkAchievements db user trigger now).2.1 t = candidates user t := by
  apply candidates_congr
  · rw [checkAchievements_stats, foldl_unlock_totalReports]
  · rw [checkAchievements_stats, foldl_unlock_streak]
  · rw [checkAchievements_stats, foldl_unlock_level]
  · rfl

theorem catalog_id_inj {a b : Achievement} (ha : a ∈ getAllAchievements)
    (hb : b ∈ getAllAchievements) (h : a.id = b.id) : a = b := by
  simp only [getAllAchievements, List.mem_cons, List.mem_singleton, List.not_mem_nil,
    or_false] at ha hb
  rcases ha with ha | ha | ha | ha | ha | ha | ha | ha | ha | ha | ha | ha | ha <;>
  rcases hb with hb | hb | hb | hb | hb | hb | hb | hb | hb | hb | hb | hb | hb <;>
  subst ha <;> subst hb <;> first | rfl | exact absurd h (by decide)

theorem foldl_unlock_nodup_prefix (now : Int) (l : List Achievement) (s : Stats)
    (h : (achievementIds s).Nodup) :
    (achievementIds (l.foldl (unlock now) s)).Nodup ∧
      s.achievements <+: (l.foldl (unlock now) s).achievements := by
  obtain ⟨added, h1, h2, h3, _⟩ := foldl_unlock_appends now l s
  constructor
  · unfold achievementIds at h ⊢
    rw [h1, List.map_append, List.nodup_append]
    refine ⟨h, h2, ?_⟩
    intro x hx hy
    obtain ⟨r, hr, hrx⟩ := List.mem_map.mp hy
    apply h3 r hr
    unfold achievementIds
    rw [hrx]
    exact hx
  · exact ⟨added, h1.symm⟩

theorem checkLevelUp_nodup_prefix (db : Store) (user : User) (now : Int)
    (h : (achievementIds user.stats).Nodup) :
    (achievementIds (checkLevelUp db user now).2.1.stats).Nodup ∧
      user.stats.achievements <+: (checkLevelUp db user now).2.1.stats.achievements := by
  by_cases hge : user.stats.experienceToNextLevel ≤ user.stats.experience
  · rw [checkLevelUp_ge db user now hge]
    dsimp only
    rw [checkAchievements_stats]
    exact foldl_unlock_nodup_prefix now _ (levelUp user.stats) h
  · rw [checkLevelUp_lt db user now (not_le.mp hge)]
    exact ⟨h, List.prefix_refl _⟩

/-! ## Claims about the achievement evaluator -/

/-- C17: idempotent achievement unlock. Calling `checkAchievements` a second
time (with the same trigger, at any later time) on the document and store the
first call left changes nothing: the stats, hence `achievements`, `totalPoints`
and `experience`, and the store are what they were after the first call. The
records the first call appended have pairwise distinct ids, none of which was
recorded before, so no id is recorded twice by the two calls. -/
theorem C17_checkAchievements_idempotent (db : Store) (user : User) (trigger : Option String)
    (now1 now2 : Int) :
    (checkAchievements (checkAchievements db user trigger now1).1
        (checkAchievements db user trigger now1).2.1 trigger now2).2.1.stats =
      (checkAchievements db user trigger now1).2.1.stats ∧
    (checkAchievements (checkAchievements db user trigger now1).1
        (checkAchievements db user trigger now1).2.1 trigger now2).1 =
      (checkAchievements db user trigger now1).1 ∧
    ∃ added : List AchievementRecord,
      (checkAchievements db user trigger now1).2.1.stats.achievements =
        user.stats.achievements ++ added ∧
      (added.map (fun r => r.id)).Nodup ∧
      ∀ r ∈ added, r.id ∉ achievementIds user.stats := by
  have hstats : (checkAchievements (checkAchievements db user trigger now1).1
        (checkAchievements db user trigger now1).2.1 trigger now2).2.1.stats =
      (checkAchievements db user trigger now1).2.1.stats := by
    rw [checkAchievements_stats _ (checkAchievements db user trigger now1).2.1,
      candidates_checkAchievements]
    apply foldl_unlock_of_all_mem
    intro a ha
    rw [checkAchievements_stats]
    exact foldl_unlock_mem_ids now1 _ _ ha
  have huser : (checkAchievements (checkAchievements db user trigger now1).1
        (checkAchievements db user trigger now1).2.1 trigger now2).2.1 =
      (checkAchievements db user trigger now1).2.1 := by
    have hid := checkAchievements_id (checkAchievements db user trigger now1).1
      (checkAchievements db user trigger now1).2.1 trigger now2
    have hfol := checkAchievements_followers (checkAchievements db user trigger now1).1
      (checkAchievements db user trigger now1).2.1 trigger now2
    generalize (checkAchievements (checkAchievements db user trigger now1).1
      (checkAchievements db user trigger now1).2.1 trigger now2).2.1 = u2 at hstats hid hfol
    cases u2
    cases h1 : (checkAchievements db user trigger now1).2.1
    rw [h1] at hstats hid hfol
    simp only at hstats hid hfol
    rw [hstats, hid, hfol]
  refine ⟨hstats, ?_, ?_⟩
  · rcases checkAchievements_store (checkAchievements db user trigger now1).1
        (checkAchievements db user trigger now1).2.1 trigger now2 with h | h
    · exact h
    · rw [h, huser]
      by_cases hc : (candidates user trigger).length > 0
      · have h1 : (checkAchievements db user trigger now1).1 =
            save db (checkAchievements db user trigger now1).2.1 := by
          unfold checkAchievements
          simp [hc]
        rw [h1, save_save _ _ _ rfl]
      · have hnil : candidates user trigger = [] := by
          cases hl : candidates user trigger with
          | nil => rfl
          | cons a l => rw [hl] at hc; simp at hc
        have h2 := h
        rw [checkAchievements_of_nil _ _ _ _
          (by rw [candidates_checkAchievements]; exact hnil)] at h2
        exact h2.symm
  · obtain ⟨added, h1, h2, h3, _⟩ :=
      foldl_unlock_appends now1 (candidates user trigger) user.stats
    exact ⟨added, h1, h2, h3⟩

/-- C18: achievement set invariant. For a stored record whose achievement ids
are pairwise distinct, after `checkAchievements` (any trigger), after
`awardPoints` (any action and amount) and after `updateStreak` (any time) the
ids are still pairwise distinct and the old list of records is a prefix of the
new one: every record present before is still there, unmodified. The one
`awardPoints` call that does not return is the one whose resolved amount is an
inherited function or object: it throws and has written nothing. -/
theorem C18_achievement_set_invariant (db : Store) (userId : Nat) (user : User)
    (trigger action : Option String) (amount : Option Int) (tz now : Int)
    (hfind : findById db userId = some user) (hnodup : (achievementIds user.stats).Nodup) :
    ((achievementIds (checkAchievements db user trigger now).2.1.stats).Nodup ∧
      user.stats.achievements <+: (checkAchievements db user trigger now).2.1.stats.achievements) ∧
    ((∃ db1 r user1, awardPoints db userId action amount now = Except.ok (db1, r) ∧
        findById db1 userId = some user1 ∧ (achievementIds user1.stats).Nodup ∧
        user.stats.achievements <+: user1.stats.achievements) ∨
      (resolvesToInherited action amount = true ∧
        awardPoints db userId action amount now = Except.error "User validation failed")) ∧
    (∃ db1 r user1, updateStreak db userId tz now = Except.ok (db1, r) ∧
      findById db1 userId = some user1 ∧ (achievementIds user1.stats).Nodup ∧
      user.stats.achievements <+: user1.stats.achievements) := by
  refine ⟨?_, ?_, ?_⟩
  · rw [checkAchievements_stats]
    exact foldl_unlock_nodup_prefix now _ user.stats hnodup
  · by_cases hp : 0 < pointsToAward action amount
    · have hid := findById_id hfind
      have h := checkLevelUp_nodup_prefix db
        { user with stats := addPoints user.stats (pointsToAward action amount) } now hnodup
      exact Or.inl ⟨_, _, _, awardPoints_award db userId user action amount now hfind hp,
        findById_save_of_id db _ userId (by rw [checkLevelUp_id]; exact hid), h.1, h.2⟩
    · cases hin : resolvesToInherited action amount with
      | true =>
        exact Or.inr ⟨rfl, awardPoints_inherited db userId user action amount now hfind hin⟩
      | false =>
        exact Or.inl ⟨db, none, user, awardPoints_noop db userId user action amount now hfind
          hin (not_lt.mp hp), hfind, hnodup, List.prefix_refl _⟩
  · obtain ⟨db1, r, user1, hcall, hfind1, hstats⟩ := updateStreak_step db userId user tz now hfind
    refine ⟨db1, r, user1, hcall, hfind1, ?_⟩
    rcases hstats with h | ⟨streak, _, h⟩
    · rw [h]
      exact ⟨hnodup, List.prefix_refl _⟩
    · rw [h]
      exact ⟨hnodup, List.prefix_refl _⟩

/-- C18 (witness): a user at level 4 with experience 95 who already holds
`first_report`; the award of 10 points raises the level to 5 and appends
`level_5` after the old record. -/
theorem C18_achievement_set_invariant_witness :
    ((achievementIds (checkAchievements (singleStore statsLevel4) ⟨1, statsLevel4, []⟩
        (some "report") 7).2.1.stats).Nodup ∧
      (⟨1, statsLevel4, []⟩ : User).stats.achievements <+:
        (checkAchievements (singleStore statsLevel4) ⟨1, statsLevel4, []⟩
          (some "report") 7).2.1.stats.achievements) ∧
    ((∃ db1 r user1, awardPoints (singleStore statsLevel4) 1 none (some 10) 7 =
          Except.ok (db1, r) ∧
        findById db1 1 = some user1 ∧ (achievementIds user1.stats).Nodup ∧
        (⟨1, statsLevel4, []⟩ : User).stats.achievements <+: user1.stats.achievements) ∨
      (resolvesToInherited none (some 10) = true ∧
        awardPoints (singleStore statsLevel4) 1 none (some 10) 7 =
          Except.error "User validation failed")) ∧
    (∃ db1 r user1, updateStreak (singleStore statsLevel4) 1 0 7 = Except.ok (db1, r) ∧
      findById db1 1 = some user1 ∧ (achievementIds user1.stats).Nodup ∧
      (⟨1, statsLevel4, []⟩ : User).stats.achievements <+: user1.stats.achievements) :=
  C18_achievement_set_invariant (singleStore statsLevel4) 1 ⟨1, statsLevel4, []⟩
    (some "report") none (some 10) 0 7 (by decide) (by decide)

/-- C19 (counterexample): a user with one report whose `first_report` is
already unlocked. `checkAchievements(user, 'report')` changes nothing, yet it
returns `[FIRST_REPORT]`: a definition whose id was present before the call. -/
theorem C19_counterexample :
    "first_report" ∈ achievementIds statsFirstReportDone ∧
    (checkAchievements (singleStore statsFirstReportDone) ⟨1, statsFirstReportDone, []⟩
      (some "report") 5).2.1.stats = statsFirstReportDone ∧
    (checkAchievements (singleStore statsFirstReportDone) ⟨1, statsFirstReportDone, []⟩
      (some "report") 5).2.2 = [ACHIEVEMENTS.FIRST_REPORT] := by
  decide

/-- C19 (amended): `checkAchievements` returns the definitions whose predicate
holds under the trigger, already unlocked or not. For a catalog definition: if
its id was absent before the call and is present after it, it is in the
returned list; and if it is in the returned list, its id is present after the
call (it may have been present before as well). -/
theorem C19_returned_list (db : Store) (user : User) (trigger : Option String) (now : Int)
    (a : Achievement) (ha : a ∈ getAllAchievements) :
    (a.id ∉ achievementIds user.stats →
      a.id ∈ achievementIds (checkAchievements db user trigger now).2.1.stats →
      a ∈ (checkAchievements db user trigger now).2.2) ∧
    (a ∈ (checkAchievements db user trigger now).2.2 →
      a.id ∈ achievementIds (checkAchievements db user trigger now).2.1.stats) ∧
    (a ∈ (checkAchievements db user trigger now).2.2 ↔ a ∈ candidates user trigger) := by
  refine ⟨?_, ?_, Iff.rfl⟩
  · intro hbefore hafter
    show a ∈ candidates user trigger
    rw [checkAchievements_stats] at hafter
    obtain ⟨added, h1, _, _, h4, _⟩ :=
      foldl_unlock_appends now (candidates user trigger) user.stats
    unfold achievementIds at hafter hbefore
    rw [h1, List.map_append, List.mem_append] at hafter
    rcases hafter with h | h
    · exact absurd h hbefore
    · obtain ⟨r, hr, hrid⟩ := List.mem_map.mp h
      obtain ⟨c, hc, hrc⟩ := h4 r hr
      have hid : a.id = c.id := by rw [← hrid, hrc]; rfl
      rw [catalog_id_inj ha (candidates_subset_catalog user trigger hc) hid]
      exact hc
  · intro hret
    rw [checkAchievements_stats]
    exact foldl_unlock_mem_ids now _ _ hret

/-- C19 (witness): the amended statement for `FIRST_REPORT` at the user whose
`first_report` is already unlocked. -/
theorem C19_returned_list_witness :
    (ACHIEVEMENTS.FIRST_REPORT.id ∉ achievementIds (⟨1, statsFirstReportDone, []⟩ : User).stats →
      ACHIEVEMENTS.FIRST_REPORT.id ∈ achievementIds (checkAchievements
        (singleStore statsFirstReportDone) ⟨1, statsFirstReportDone, []⟩
        (some "report") 5).2.1.stats →
      ACHIEVEMENTS.FIRST_REPORT ∈ (checkAchievements (singleStore statsFirstReportDone)
        ⟨1, statsFirstReportDone, []⟩ (some "report") 5).2.2) ∧
    (ACHIEVEMENTS.FIRST_REPORT ∈ (checkAchievements (singleStore statsFirstReportDone)
        ⟨1, statsFirstReportDone, []⟩ (some "report") 5).2.2 →
      ACHIEVEMENTS.FIRST_REPORT.id ∈ achievementIds (checkAchievements
        (singleStore statsFirstReportDone) ⟨1, statsFirstReportDone, []⟩
        (some "report") 5).2.1.stats) ∧
    (ACHIEVEMENTS.FIRST_REPORT ∈ (checkAchievements (singleStore statsFirstReportDone)
        ⟨1, statsFirstReportDone, []⟩ (some "report") 5).2.2 ↔
      ACHIEVEMENTS.FIRST_REPORT ∈ candidates ⟨1, statsFirstReportDone, []⟩ (some "report")) :=
  C19_returned_list (singleStore statsFirstReportDone) ⟨1, statsFirstReportDone, []⟩
    (some "report") 5 ACHIEVEMENTS.FIRST_REPORT (by decide)

theorem mem_candidates_none (user : User) (a : Achievement) :
    a ∈ candidates user none ↔
      (user.stats.totalReports = 1 ∧ a = ACHIEVEMENTS.FIRST_REPORT) ∨
      (user.stats.totalReports = 10 ∧ a = ACHIEVEMENTS.REPORTS_10) ∨
      (user.stats.totalReports = 50 ∧ a = ACHIEVEMENTS.REPORTS_50) ∨
      (user.stats.totalReports = 100 ∧ a = ACHIEVEMENTS.REPORTS_100) ∨
      (user.stats.streak = 3 ∧ a = ACHIEVEMENTS.STREAK_3) ∨
      (user.stats.streak = 7 ∧ a = ACHIEVEMENTS.STREAK_7) ∨
      (user.stats.streak = 30 ∧ a = ACHIEVEMENTS.STREAK_30) ∨
      (user.stats.level = 5 ∧ a = ACHIEVEMENTS.LEVEL_5) ∨
      (user.stats.level = 10 ∧ a = ACHIEVEMENTS.LEVEL_10) ∨
      (user.stats.level = 25 ∧ a = ACHIEVEMENTS.LEVEL_25) ∨
      ((10 : Int) ≤ user.followers.length ∧ a = ACHIEVEMENTS.SOCIAL_BUTTERFLY) := by
  unfold candidates
  simp only [noTrigger, or_true, if_true, List.mem_append, List.mem_ite_nil_right,
    List.mem_singleton, ge_iff_le, or_assoc]

/-- C20: unlock predicates. With no trigger, a definition is among those
`checkAchievements` finds to hold exactly when it is `first_report`,
`reports_10`, `reports_50`, `reports_100` and `totalReports` is 1, 10, 50, 100
respectively; `streak_3`, `streak_7`, `streak_30` and `streak` is 3, 7, 30;
`level_5`, `level_10`, `level_25` and `level` is 5, 10, 25; or
`social_butterfly` and there are at least 10 followers. Nothing else is found:
in particular `team_join` and `challenge_win` never are. -/
theorem C20_unlock_predicates (db : Store) (user : User) (now : Int) (a : Achievement) :
    (a ∈ (checkAchievements db user none now).2.2 ↔
      (user.stats.totalReports = 1 ∧ a = ACHIEVEMENTS.FIRST_REPORT) ∨
      (user.stats.totalReports = 10 ∧ a = ACHIEVEMENTS.REPORTS_10) ∨
      (user.stats.totalReports = 50 ∧ a = ACHIEVEMENTS.REPORTS_50) ∨
      (user.stats.totalReports = 100 ∧ a = ACHIEVEMENTS.REPORTS_100) ∨
      (user.stats.streak = 3 ∧ a = ACHIEVEMENTS.STREAK_3) ∨
      (user.stats.streak = 7 ∧ a = ACHIEVEMENTS.STREAK_7) ∨
      (user.stats.streak = 30 ∧ a = ACHIEVEMENTS.STREAK_30) ∨
      (user.stats.level = 5 ∧ a = ACHIEVEMENTS.LEVEL_5) ∨
      (user.stats.level = 10 ∧ a = ACHIEVEMENTS.LEVEL_10) ∨
      (user.stats.level = 25 ∧ a = ACHIEVEMENTS.LEVEL_25) ∨
      ((10 : Int) ≤ user.followers.length ∧ a = ACHIEVEMENTS.SOCIAL_BUTTERFLY)) ∧
    ACHIEVEMENTS.TEAM_JOIN ∉ (checkAchievements db user none now).2.2 ∧
    ACHIEVEMENTS.CHALLENGE_WIN ∉ (checkAchievements db user none now).2.2 := by
  refine ⟨mem_candidates_none user a, ?_, ?_⟩
  · intro h
    have h1 := (mem_candidates_none user ACHIEVEMENTS.TEAM_JOIN).mp h
    rcases h1 with h | h | h | h | h | h | h | h | h | h | h <;>
      exact absurd h.2 (by decide)
  · intro h
    have h1 := (mem_candidates_none user ACHIEVEMENTS.CHALLENGE_WIN).mp h
    rcases h1 with h | h | h | h | h | h | h | h | h | h | h <;>
      exact absurd h.2 (by decide)

/-! ## Claims about the category filter and the first-report scenario -/

theorem filter_ite_singleton {α : Type} (f : α → Bool) (x : α) (p : Prop) [Decidable p] :
    List.filter f (if p then [x] else []) = if p ∧ f x = true then [x] else [] := by
  by_cases hp : p <;> by_cases hf : f x = true <;> simp [hp, hf]

theorem candidates_report_eq (user : User) :
    candidates user (some "report") = restrictedCandidates user "reports" := by
  unfold restrictedCandidates candidates
  simp [noTrigger, List.filter_append, filter_ite_singleton, specCategory,
    ACHIEVEMENTS.FIRST_REPORT, ACHIEVEMENTS.REPORTS_10, ACHIEVEMENTS.REPORTS_50,
    ACHIEVEMENTS.REPORTS_100, ACHIEVEMENTS.STREAK_3, ACHIEVEMENTS.STREAK_7,
    ACHIEVEMENTS.STREAK_30, ACHIEVEMENTS.LEVEL_5, ACHIEVEMENTS.LEVEL_10,
    ACHIEVEMENTS.LEVEL_25, ACHIEVEMENTS.SOCIAL_BUTTERFLY]

theorem candidates_streak_eq (user : User) :
    candidates user (some "streak") = restrictedCandidates user "streak" := by
  unfold restrictedCandidates candidates
  simp [noTrigger, List.filter_append, filter_ite_singleton, specCategory,
    ACHIEVEMENTS.FIRST_REPORT, ACHIEVEMENTS.REPORTS_10, ACHIEVEMENTS.REPORTS_50,
    ACHIEVEMENTS.REPORTS_100, ACHIEVEMENTS.STREAK_3, ACHIEVEMENTS.STREAK_7,
    ACHIEVEMENTS.STREAK_30, ACHIEVEMENTS.LEVEL_5, ACHIEVEMENTS.LEVEL_10,
    ACHIEVEMENTS.LEVEL_25, ACHIEVEMENTS.SOCIAL_BUTTERFLY]

theorem candidates_level_eq (user : User) :
    candidates user (some "level") = restrictedCandidates user "level" := by
  unfold restrictedCandidates candidates
  simp [noTrigger, List.filter_append, filter_ite_singleton, specCategory,
    ACHIEVEMENTS.FIRST_REPORT, ACHIEVEMENTS.REPORTS_10, ACHIEVEMENTS.REPORTS_50,
    ACHIEVEMENTS.REPORTS_100, ACHIEVEMENTS.STREAK_3, ACHIEVEMENTS.STREAK_7,
    ACHIEVEMENTS.STREAK_30, ACHIEVEMENTS.LEVEL_5, ACHIEVEMENTS.LEVEL_10,
    ACHIEVEMENTS.LEVEL_25, ACHIEVEMENTS.SOCIAL_BUTTERFLY]

theorem candidates_social_eq (user : User) :
    candidates user (some "social") = restrictedCandidates user "social" := by
  unfold restrictedCandidates candidates
  simp [noTrigger, List.filter_append, filter_ite_singleton, specCategory,
    ACHIEVEMENTS.FIRST_REPORT, ACHIEVEMENTS.REPORTS_10, ACHIEVEMENTS.REPORTS_50,
    ACHIEVEMENTS.REPORTS_100, ACHIEVEMENTS.STREAK_3, ACHIEVEMENTS.STREAK_7,
    ACHIEVEMENTS.STREAK_30, ACHIEVEMENTS.LEVEL_5, ACHIEVEMENTS.LEVEL_10,
    ACHIEVEMENTS.LEVEL_25, ACHIEVEMENTS.SOCIAL_BUTTERFLY]

theorem candidates_reports_nil (user : User) : candidates user (some "reports") = [] := by
  unfold candidates
  simp [noTrigger]

/-- C21 (counterexample): for a user with `totalReports = 1` and nothing
unlocked, `checkAchievements(user, 'reports')` finds nothing and leaves the
stats unchanged, whereas a call with no trigger restricted to the category
`reports` finds `first_report` and unlocks it. -/
theorem C21_counterexample :
    (checkAchievements (singleStore statsOneReport) ⟨1, statsOneReport, []⟩
      (some "reports") 0).2.2 = [] ∧
    (checkAchievements (singleStore statsOneReport) ⟨1, statsOneReport, []⟩
      (some "reports") 0).2.1.stats = statsOneReport ∧
    restrictedCandidates ⟨1, statsOneReport, []⟩ "reports" = [ACHIEVEMENTS.FIRST_REPORT] ∧
    unlockRestricted ⟨1, statsOneReport, []⟩ "reports" 0 =
      { statsOneReport with totalPoints := 10, experience := 10,
                            achievements := [recordOf 0 ACHIEVEMENTS.FIRST_REPORT] } := by
  decide

/-- C21 (amended): category filter. The trigger strings of the source are
`report`, `streak`, `level` and `social`; the category `reports` of the
specification is triggered by `report`. For each of them `checkAchievements`
finds exactly the definitions of that category that a call with no trigger
finds, and leaves the stats such a restricted call would leave, so it unlocks
none of another category. With the trigger `reports` it finds nothing and
leaves the stats unchanged. -/
theorem C21_category_filter (db : Store) (user : User) (now : Int) :
    ((checkAchievements db user (some "report") now).2.2 = restrictedCandidates user "reports" ∧
      (checkAchievements db user (some "report") now).2.1.stats =
        unlockRestricted user "reports" now) ∧
    ((checkAchievements db user (some "streak") now).2.2 = restrictedCandidates user "streak" ∧
      (checkAchievements db user (some "streak") now).2.1.stats =
        unlockRestricted user "streak" now) ∧
    ((checkAchievements db user (some "level") now).2.2 = restrictedCandidates user "level" ∧
      (checkAchievements db user (some "level") now).2.1.stats =
        unlockRestricted user "level" now) ∧
    ((checkAchievements db user (some "social") now).2.2 = restrictedCandidates user "social" ∧
      (checkAchievements db user (some "social") now).2.1.stats =
        unlockRestricted user "social" now) ∧
    ((checkAchievements db user (some "reports") now).2.2 = [] ∧
      (checkAchievements db user (some "reports") now).2.1.stats = user.stats) := by
  refine ⟨⟨candidates_report_eq user, ?_⟩, ⟨candidates_streak_eq user, ?_⟩,
    ⟨candidates_level_eq user, ?_⟩, ⟨candidates_social_eq user, ?_⟩,
    ⟨candidates_reports_nil user, ?_⟩⟩
  · rw [checkAchievements_stats, candidates_report_eq]; rfl
  · rw [checkAchievements_stats, candidates_streak_eq]; rfl
  · rw [checkAchievements_stats, candidates_level_eq]; rfl
  · rw [checkAchievements_stats, candidates_social_eq]; rfl
  · rw [checkAchievements_stats, candidates_reports_nil]; rfl

/-- When the store still holds the document as it was read, and the document
has only appended to its achievements, writing the modified paths is writing
the document. -/
theorem saveModified_fresh (db : Store) (read user : User) (added : List AchievementRecord)
    (hid : user._id = read._id) (hfind : findById db read._id = some read)
    (hfollowers : user.followers = read.followers)
    (hadded : user.stats.achievements = read.stats.achievements ++ added) :
    saveModified db read user = save db user := by
  unfold saveModified
  rw [hid]
  unfold findById at hfind
  cases hdb : db read._id with
  | none => rw [hdb] at hfind; cases hfind
  | some stored =>
    rw [hdb] at hfind
    have hread : read = { _id := read._id, stats := stored.stats, followers := stored.followers } :=
      (Option.some.inj hfind).symm
    have hs : stored.stats = read.stats := by rw [hread]
    have hf : stored.followers = read.followers := by rw [hread]
    funext i
    simp only [save, hid]
    by_cases hi : i = read._id
    · simp only [hi, if_true, hs, hf, hfollowers]
      congr 1
      have hmerge : mergeModified read.stats user.stats read.stats = user.stats := by
        unfold mergeModified modifiedPath
        rw [hadded, List.drop_left]
        cases huser : user.stats
        simp only [huser] at hadded
        simp only [hadded]
        congr 1 <;> split_ifs with h <;> first | rfl | exact h.symm
      rw [hmerge]
    · simp only [hi, if_false]

/-- C22 (the code at the failing input): the first report of a new user through
`createReport`. `awardPoints` stores 10 points and `updateStreak` stores streak
1, each on its own copy of the user; `checkAchievements(user, 'report')` then
runs on the document read before them, whose `totalPoints` and `experience`
are still 0, adds the 10 points of `first_report` to those and saves. The
handler ends without error with `totalPoints = 10`, `experience = 10`,
`streak = 1`, `totalReports = 1` and `achievements = [first_report]`, not with
20 points and 20 experience. -/
theorem C22_createReport_first_report (tz now : Int) :
    ((createReport newUserStore 1 tz now).1 1).map (fun d => d.stats) =
      some { defaultStats with totalReports := 1, totalPoints := 10, experience := 10,
                               streak := 1, longestStreak := 1,
                               lastReportDate := some (setHours0 tz now),
                               achievements := [recordOf now ACHIEVEMENTS.FIRST_REPORT] } ∧
    (createReport newUserStore 1 tz now).2 = none := by
  constructor <;> rfl

/-! ## Claims about reward accounting and the numeric invariants -/

/-- C23: achievement reward accounting. After `checkAchievements` the
achievements are the old ones followed by the appended records; `totalPoints`
and `experience` have each grown by the sum of the points of the appended
records; and each appended record carries the id, name, description, icon and
points of a catalog definition. -/
theorem C23_reward_accounting (db : Store) (user : User) (trigger : Option String)
    (now : Int) :
    ∃ added : List AchievementRecord,
      (checkAchievements db user trigger now).2.1.stats.achievements =
        user.stats.achievements ++ added ∧
      (checkAchievements db user trigger now).2.1.stats.totalPoints - user.stats.totalPoints =
        (added.map (fun r => r.points)).sum ∧
      (checkAchievements db user trigger now).2.1.stats.experience - user.stats.experience =
        (added.map (fun r => r.points)).sum ∧
      ∀ r ∈ added, ∃ a ∈ getAllAchievements,
        r.id = a.id ∧ r.name = a.name ∧ r.description = a.description ∧
        r.icon = a.icon ∧ r.points = a.points := by
  obtain ⟨added, h1, _, _, h4, h5, h6⟩ :=
    foldl_unlock_appends now (candidates user trigger) user.stats
  refine ⟨added, h1, ?_, ?_, ?_⟩
  · rw [checkAchievements_stats, h5]
    omega
  · rw [checkAchievements_stats, h6]
    omega
  · intro r hr
    obtain ⟨a, ha, hra⟩ := h4 r hr
    refine ⟨a, candidates_subset_catalog user trigger ha, ?_⟩
    rw [hra]
    exact ⟨rfl, rfl, rfl, rfl, rfl⟩

theorem streakStats_experience_le (stats : Stats) (today streak : Int) :
    stats.experience ≤ (streakStats stats today streak).experience := by
  simp only [streakStats, STREAK_BONUS]
  split_ifs <;> omega

theorem streakStats_totalPoints_le (stats : Stats) (today streak : Int) :
    stats.totalPoints ≤ (streakStats stats today streak).totalPoints := by
  simp only [streakStats, STREAK_BONUS]
  split_ifs <;> omega

/-- C24 (counterexample): with experience 95 of 100, `updateStreak` on the
second day of a streak pays the bonus 10 and `checkAchievements` unlocks
`first_report` for 10 points; both leave experience 105 with the threshold
still 100. -/
theorem C24_counterexample :
    (0 ≤ stats95Streak.experience ∧
      stats95Streak.experience < stats95Streak.experienceToNextLevel) ∧
    (statsAfter (updateStreak (singleStore stats95Streak) 1 0 90000000) 1).map
      (fun s => (s.experience, s.experienceToNextLevel)) = some (105, 100) ∧
    (0 ≤ stats95OneReport.experience ∧
      stats95OneReport.experience < stats95OneReport.experienceToNextLevel) ∧
    (checkAchievements (singleStore stats95OneReport) ⟨1, stats95OneReport, []⟩
      (some "report") 0).2.1.stats.experience = 105 ∧
    (checkAchievements (singleStore stats95OneReport) ⟨1, stats95OneReport, []⟩
      (some "report") 0).2.1.stats.experienceToNextLevel = 100 := by
  decide

/-- C24 (amended): for a stored record with `0 ≤ experience`, after
`updateStreak` (at any time) and after `checkAchievements` (any trigger)
experience is at least what it was, hence still non-negative, while
`experienceToNextLevel` and `level` are what they were: neither call runs the
level-up check. -/
theorem C24_experience_after_streak_and_achievements (db : Store) (userId : Nat) (user : User)
    (trigger : Option String) (tz now : Int)
    (hfind : findById db userId = some user) (hexp : 0 ≤ user.stats.experience) :
    (∃ db1 r user1, updateStreak db userId tz now = Except.ok (db1, r) ∧
      findById db1 userId = some user1 ∧
      user.stats.experience ≤ user1.stats.experience ∧ 0 ≤ user1.stats.experience ∧
      user1.stats.experienceToNextLevel = user.stats.experienceToNextLevel ∧
      user1.stats.level = user.stats.level) ∧
    (user.stats.experience ≤ (checkAchievements db user trigger now).2.1.stats.experience ∧
      0 ≤ (checkAchievements db user trigger now).2.1.stats.experience ∧
      (checkAchievements db user trigger now).2.1.stats.experienceToNextLevel =
        user.stats.experienceToNextLevel ∧
      (checkAchievements db user trigger now).2.1.stats.level = user.stats.level) := by
  constructor
  · obtain ⟨db1, r, user1, hcall, hfind1, hstats⟩ := updateStreak_step db userId user tz now hfind
    refine ⟨db1, r, user1, hcall, hfind1, ?_⟩
    rcases hstats with h | ⟨streak, _, h⟩
    · rw [h]
      exact ⟨le_refl _, hexp, rfl, rfl⟩
    · rw [h]
      exact ⟨streakStats_experience_le _ _ _,
        le_trans hexp (streakStats_experience_le _ _ _), rfl, rfl⟩
  · have hle := foldl_unlock_experience_le now (candidates user trigger) user.stats
      (fun a ha => candidates_points_nonneg user trigger ha)
    rw [checkAchievements_stats]
    exact ⟨hle, le_trans hexp hle, foldl_unlock_experienceToNextLevel _ _ _,
      foldl_unlock_level _ _ _⟩

/-- C24 (witness): the amended statement at the user with experience 95 of 100
on the second day of a streak. -/
theorem C24_experience_after_streak_and_achievements_witness :
    (∃ db1 r user1, updateStreak (singleStore stats95Streak) 1 0 90000000 =
        Except.ok (db1, r) ∧
      findById db1 1 = some user1 ∧
      (⟨1, stats95Streak, []⟩ : User).stats.experience ≤ user1.stats.experience ∧
      0 ≤ user1.stats.experience ∧
      user1.stats.experienceToNextLevel =
        (⟨1, stats95Streak, []⟩ : User).stats.experienceToNextLevel ∧
      user1.stats.level = (⟨1, stats95Streak, []⟩ : User).stats.level) ∧
    ((⟨1, stats95Streak, []⟩ : User).stats.experience ≤
        (checkAchievements (singleStore stats95Streak) ⟨1, stats95Streak, []⟩
          (some "report") 90000000).2.1.stats.experience ∧
      0 ≤ (checkAchievements (singleStore stats95Streak) ⟨1, stats95Streak, []⟩
          (some "report") 90000000).2.1.stats.experience ∧
      (checkAchievements (singleStore stats95Streak) ⟨1, stats95Streak, []⟩
          (some "report") 90000000).2.1.stats.experienceToNextLevel =
        (⟨1, stats95Streak, []⟩ : User).stats.experienceToNextLevel ∧
      (checkAchievements (singleStore stats95Streak) ⟨1, stats95Streak, []⟩
          (some "report") 90000000).2.1.stats.level =
        (⟨1, stats95Streak, []⟩ : User).stats.level) :=
  C24_experience_after_streak_and_achievements (singleStore stats95Streak) 1
    ⟨1, stats95Streak, []⟩ (some "report") 0 90000000 (by decide) (by decide)

theorem foldl_unlock_totalPoints_le (now : Int) (l : List Achievement) (s : Stats)
    (h : ∀ a ∈ l, 0 ≤ a.points) :
    s.totalPoints ≤ (l.foldl (unlock now) s).totalPoints := by
  induction l generalizing s with
  | nil => exact le_refl _
  | cons a l ih =>
    rw [List.foldl_cons]
    refine le_trans ?_ (ih _ (fun b hb => h b (List.mem_cons_of_mem a hb)))
    by_cases hmem : a.id ∈ achievementIds s
    · rw [unlock_of_mem now s a hmem]
    · rw [unlock_of_not_mem now s a hmem]
      have := h a (List.mem_cons_self a l)
      simp only
      omega

theorem checkLevelUp_totalPoints_le (db : Store) (user : User) (now : Int)
    (hlevel : 0 ≤ user.stats.level) :
    user.stats.totalPoints ≤ (checkLevelUp db user now).2.1.stats.totalPoints := by
  by_cases h : user.stats.experienceToNextLevel ≤ user.stats.experience
  · rw [checkLevelUp_ge db user now h]
    dsimp only
    rw [checkAchievements_stats]
    refine le_trans ?_ (foldl_unlock_totalPoints_le now _ _
      (fun a ha => candidates_points_nonneg _ _ ha))
    simp only [levelUp]
    omega
  · rw [checkLevelUp_lt db user now (not_le.mp h)]

theorem mem_candidates_level (user : User) {a : Achievement}
    (h : a ∈ candidates user (some "level")) :
    a = ACHIEVEMENTS.LEVEL_5 ∨ a = ACHIEVEMENTS.LEVEL_10 ∨ a = ACHIEVEMENTS.LEVEL_25 := by
  unfold candidates at h
  simp [noTrigger] at h
  rcases h with h | h | h
  · exact Or.inl h.2
  · exact Or.inr (Or.inl h.2)
  · exact Or.inr (Or.inr h.2)

/-- C27: `totalPoints` is monotone. For a stored record with `totalPoints ≥ 0`
and `level ≥ 1`, after `awardPoints` (any action, any amount, negative ones
included), after `updateStreak` and after `checkAchievements`, `totalPoints` is
at least its value before the call. The one `awardPoints` call that does not
return is the one whose resolved amount is an inherited function or object: it
throws and has written nothing. -/
theorem C27_totalPoints_monotone (db : Store) (userId : Nat) (user : User)
    (action trigger : Option String) (amount : Option Int) (tz now : Int)
    (hfind : findById db userId = some user) (_hpoints : 0 ≤ user.stats.totalPoints)
    (hlevel : 1 ≤ user.stats.level) :
    ((∃ db1 r user1, awardPoints db userId action amount now = Except.ok (db1, r) ∧
        findById db1 userId = some user1 ∧
        user.stats.totalPoints ≤ user1.stats.totalPoints) ∨
      (resolvesToInherited action amount = true ∧
        awardPoints db userId action amount now = Except.error "User validation failed")) ∧
    (∃ db1 r user1, updateStreak db userId tz now = Except.ok (db1, r) ∧
      findById db1 userId = some user1 ∧
      user.stats.totalPoints ≤ user1.stats.totalPoints) ∧
    user.stats.totalPoints ≤ (checkAchievements db user trigger now).2.1.stats.totalPoints := by
  refine ⟨?_, ?_, ?_⟩
  · by_cases hp : 0 < pointsToAward action amount
    · have hid := findById_id hfind
      have h := checkLevelUp_totalPoints_le db
        { user with stats := addPoints user.stats (pointsToAward action amount) } now
        (by simp only [addPoints]; omega)
      refine Or.inl ⟨_, _, _, awardPoints_award db userId user action amount now hfind hp,
        findById_save_of_id db _ userId (by rw [checkLevelUp_id]; exact hid), ?_⟩
      refine le_trans ?_ h
      simp only [addPoints]
      omega
    · cases hin : resolvesToInherited action amount with
      | true =>
        exact Or.inr ⟨rfl, awardPoints_inherited db userId user action amount now hfind hin⟩
      | false =>
        exact Or.inl ⟨db, none, user, awardPoints_noop db userId user action amount now hfind
          hin (not_lt.mp hp), hfind, le_refl _⟩
  · obtain ⟨db1, r, user1, hcall, hfind1, hstats⟩ := updateStreak_step db userId user tz now hfind
    refine ⟨db1, r, user1, hcall, hfind1, ?_⟩
    rcases hstats with h | ⟨streak, _, h⟩
    · rw [h]
    · rw [h]
      exact streakStats_totalPoints_le _ _ _
  · rw [checkAchievements_stats]
    exact foldl_unlock_totalPoints_le now _ _
      (fun a ha => candidates_points_nonneg user trigger ha)

/-- C27 (witness): a fresh account, a negative explicit amount, a first
`updateStreak` and a `checkAchievements` with no trigger. -/
theorem C27_totalPoints_monotone_witness :
    ((∃ db1 r user1, awardPoints newUserStore 1 (some "DAILY_LOGIN") (some (-3)) 0 =
          Except.ok (db1, r) ∧
        findById db1 1 = some user1 ∧
        (⟨1, defaultStats, []⟩ : User).stats.totalPoints ≤ user1.stats.totalPoints) ∨
      (resolvesToInherited (some "DAILY_LOGIN") (some (-3)) = true ∧
        awardPoints newUserStore 1 (some "DAILY_LOGIN") (some (-3)) 0 =
          Except.error "User validation failed")) ∧
    (∃ db1 r user1, updateStreak newUserStore 1 0 0 = Except.ok (db1, r) ∧
      findById db1 1 = some user1 ∧
      (⟨1, defaultStats, []⟩ : User).stats.totalPoints ≤ user1.stats.totalPoints) ∧
    (⟨1, defaultStats, []⟩ : User).stats.totalPoints ≤
      (checkAchievements newUserStore ⟨1, defaultStats, []⟩ none 0).2.1.stats.totalPoints :=
  C27_totalPoints_monotone newUserStore 1 ⟨1, defaultStats, []⟩ (some "DAILY_LOGIN") none
    (some (-3)) 0 0 (by decide) (by decide) (by decide)

/-- C30: the points `awardPoints` returns account for everything the call
added. For a stored record and a resolved amount `a > 0` the call returns
`pointsAwarded = a` and `newTotal` equal to the `totalPoints` it stored. The
records it appended are level achievements. Without a level-up nothing is
appended and the stored total is the old one plus `a`; with a level-up it is the
old one plus `a`, plus 10 times the previous level, plus the points of the
appended level achievements. -/
theorem C30_newTotal_accounting (db : Store) (userId : Nat) (user : User)
    (action : Option String) (amount : Option Int) (now : Int)
    (hfind : findById db userId = some user) (hpos : 0 < pointsToAward action amount) :
    ∃ db1 user1 added,
      awardPoints db userId action amount now =
        Except.ok (db1, some { pointsAwarded := pointsToAward action amount,
                               newTotal := user1.stats.totalPoints }) ∧
      findById db1 userId = some user1 ∧
      user1.stats.achievements = user.stats.achievements ++ added ∧
      (∀ r ∈ added, r = recordOf now ACHIEVEMENTS.LEVEL_5 ∨
        r = recordOf now ACHIEVEMENTS.LEVEL_10 ∨ r = recordOf now ACHIEVEMENTS.LEVEL_25) ∧
      (user.stats.experience + pointsToAward action amount < user.stats.experienceToNextLevel →
        added = [] ∧
        user1.stats.totalPoints = user.stats.totalPoints + pointsToAward action amount) ∧
      (user.stats.experienceToNextLevel ≤ user.stats.experience + pointsToAward action amount →
        user1.stats.totalPoints =
          user.stats.totalPoints + pointsToAward action amount + 10 * user.stats.level +
            (added.map (fun r => r.points)).sum) := by
  have hid := findById_id hfind
  have hcall := awardPoints_award db userId user action amount now hfind hpos
  have hfind1 := findById_save_of_id db (checkLevelUp db
    { user with stats := addPoints user.stats (pointsToAward action amount) } now).2.1 userId
    (by rw [checkLevelUp_id]; exact hid)
  by_cases hge : user.stats.experienceToNextLevel ≤
      user.stats.experience + pointsToAward action amount
  · have hge1 : ({ user with stats := addPoints user.stats (pointsToAward action amount) }
        : User).stats.experienceToNextLevel ≤
        ({ user with stats := addPoints user.stats (pointsToAward action amount) }
        : User).stats.experience := hge
    obtain ⟨added, h1, _, _, h4, h5, _⟩ := foldl_unlock_appends now
      (candidates { user with stats := levelUp (addPoints user.stats
        (pointsToAward action amount)) } (some "level"))
      (levelUp (addPoints user.stats (pointsToAward action amount)))
    have hstats : (checkLevelUp db
        { user with stats := addPoints user.stats (pointsToAward action amount) } now).2.1.stats =
        (candidates { user with stats := levelUp (addPoints user.stats
          (pointsToAward action amount)) } (some "level")).foldl (unlock now)
          (levelUp (addPoints user.stats (pointsToAward action amount))) := by
      rw [checkLevelUp_ge db _ now hge1]
      rfl
    refine ⟨_, _, added, hcall, hfind1, ?_, ?_, ?_, ?_⟩
    · rw [hstats, h1]
      rfl
    · intro r hr
      obtain ⟨a, ha, hra⟩ := h4 r hr
      rw [hra]
      rcases mem_candidates_level _ ha with h | h | h
      · exact Or.inl (by rw [h])
      · exact Or.inr (Or.inl (by rw [h]))
      · exact Or.inr (Or.inr (by rw [h]))
    · intro hlt
      omega
    · intro _
      rw [hstats, h5]
      simp only [levelUp, addPoints]
      omega
  · have hlt1 : ({ user with stats := addPoints user.stats (pointsToAward action amount) }
        : User).stats.experience <
        ({ user with stats := addPoints user.stats (pointsToAward action amount) }
        : User).stats.experienceToNextLevel := not_le.mp hge
    have hstats : (checkLevelUp db
        { user with stats := addPoints user.stats (pointsToAward action amount) } now).2.1.stats =
        addPoints user.stats (pointsToAward action amount) := by
      rw [checkLevelUp_lt db _ now hlt1]
    refine ⟨_, _, [], hcall, hfind1, ?_, ?_, ?_, ?_⟩
    · rw [hstats, List.append_nil]
      rfl
    · intro r hr
      exact absurd hr (List.not_mem_nil r)
    · intro _
      refine ⟨rfl, ?_⟩
      rw [hstats]
      rfl
    · intro hge2
      exact absurd hge2 hge

/-- C30 (witness): a user at level 4 with experience 95 of 100 is awarded 10
points: the level rises to 5 and `level_5` is unlocked. -/
theorem C30_newTotal_accounting_witness :
    ∃ db1 user1 added,
      awardPoints (singleStore statsLevel4) 1 none (some 10) 7 =
        Except.ok (db1, some { pointsAwarded := pointsToAward none (some 10),
                               newTotal := user1.stats.totalPoints }) ∧
      findById db1 1 = some user1 ∧
      user1.stats.achievements = (⟨1, statsLevel4, []⟩ : User).stats.achievements ++ added ∧
      (∀ r ∈ added, r = recordOf 7 ACHIEVEMENTS.LEVEL_5 ∨
        r = recordOf 7 ACHIEVEMENTS.LEVEL_10 ∨ r = recordOf 7 ACHIEVEMENTS.LEVEL_25) ∧
      ((⟨1, statsLevel4, []⟩ : User).stats.experience + pointsToAward none (some 10) <
          (⟨1, statsLevel4, []⟩ : User).stats.experienceToNextLevel →
        added = [] ∧
        user1.stats.totalPoints =
          (⟨1, statsLevel4, []⟩ : User).stats.totalPoints + pointsToAward none (some 10)) ∧
      ((⟨1, statsLevel4, []⟩ : User).stats.experienceToNextLevel ≤
          (⟨1, statsLevel4, []⟩ : User).stats.experience + pointsToAward none (some 10) →
        user1.stats.totalPoints =
          (⟨1, statsLevel4, []⟩ : User).stats.totalPoints + pointsToAward none (some 10) +
            10 * (⟨1, statsLevel4, []⟩ : User).stats.level +
            (added.map (fun r => r.points)).sum) :=
  C30_newTotal_accounting (singleStore statsLevel4) 1 ⟨1, statsLevel4, []⟩ none (some 10) 7
    (by decide) (by decide)

/-! ## Claims about progress, recomputed statistics and threshold growth -/

/-- With a positive threshold and non-negative experience the percentage of
`getUserProgress` is `min(100, 100 * experience / experienceToNextLevel)` and
lies in `[0, 100]`. -/
theorem progressPercentage_of_pos (experience experienceToNextLevel : Int)
    (hexp : 0 ≤ experience) (hthr : 0 < experienceToNextLevel) :
    jsMin100 (jsTimes100 (jsDiv experience experienceToNextLevel)) =
      JsNumber.finite (min 100 (100 * (experience : ℚ) / (experienceToNextLevel : ℚ))) ∧
    (0 : ℚ) ≤ min 100 (100 * (experience : ℚ) / (experienceToNextLevel : ℚ)) ∧
    min 100 (100 * (experience : ℚ) / (experienceToNextLevel : ℚ)) ≤ 100 := by
  have ht : (0 : ℚ) < (experienceToNextLevel : ℚ) := by exact_mod_cast hthr
  have he : (0 : ℚ) ≤ (experience : ℚ) := by exact_mod_cast hexp
  refine ⟨?_, ?_, min_le_left _ _⟩
  · unfold jsDiv
    rw [if_neg (ne_of_gt hthr)]
    simp only [jsTimes100, jsMin100]
    rw [div_mul_eq_mul_div, mul_comm]
  · exact le_min (by norm_num) (div_nonneg (mul_nonneg (by norm_num) he) (le_of_lt ht))

/-- C25 (counterexample): for a stored record with experience 0 and
`experienceToNextLevel` 0, `getUserProgress` returns `NaN` as
`progressPercentage` (the quotient `0 / 0`), not 100; the team schema computes
the same quotient behind a zero guard and gives 100 there. -/
theorem C25_counterexample :
    statsZeroThreshold.experience = 0 ∧ statsZeroThreshold.experienceToNextLevel = 0 ∧
    progressPercentageOf (getUserProgress (singleStore statsZeroThreshold) 1) =
      some JsNumber.nan ∧
    teamProgressPercentage statsZeroThreshold.experience
      statsZeroThreshold.experienceToNextLevel = JsNumber.finite 100 := by
  refine ⟨rfl, rfl, rfl, rfl⟩

/-- C25 (amended): for every stored record with experience >= 0,
`getUserProgress` returns `progressPercentage = min(100, 100 * experience /
experienceToNextLevel)`, a value in `[0, 100]`, when `experienceToNextLevel > 0`
(the quotient taken exactly); with `experienceToNextLevel = 0` there is no
guard: positive experience gives exactly 100 (`Infinity` capped by `Math.min`)
and experience 0 gives `NaN`. -/
theorem C25_progress_percentage (db : Store) (userId : Nat) (user : User)
    (hfind : findById db userId = some user) (hexp : 0 ≤ user.stats.experience) :
    (0 < user.stats.experienceToNextLevel →
      progressPercentageOf (getUserProgress db userId) =
        some (JsNumber.finite (min 100
          (100 * (user.stats.experience : ℚ) / (user.stats.experienceToNextLevel : ℚ)))) ∧
      (0 : ℚ) ≤ min 100
        (100 * (user.stats.experience : ℚ) / (user.stats.experienceToNextLevel : ℚ)) ∧
      min 100
        (100 * (user.stats.experience : ℚ) / (user.stats.experienceToNextLevel : ℚ)) ≤ 100) ∧
    (user.stats.experienceToNextLevel = 0 → 0 < user.stats.experience →
      progressPercentageOf (getUserProgress db userId) = some (JsNumber.finite 100)) ∧
    (user.stats.experienceToNextLevel = 0 → user.stats.experience = 0 →
      progressPercentageOf (getUserProgress db userId) = some JsNumber.nan) := by
  have hres : progressPercentageOf (getUserProgress db userId) =
      some (jsMin100 (jsTimes100
        (jsDiv user.stats.experience user.stats.experienceToNextLevel))) := by
    unfold getUserProgress
    rw [hfind]
    rfl
  refine ⟨?_, ?_, ?_⟩
  · intro hthr
    obtain ⟨h1, h2, h3⟩ := progressPercentage_of_pos user.stats.experience
      user.stats.experienceToNextLevel hexp hthr
    rw [hres, h1]
    exact ⟨rfl, h2, h3⟩
  · intro hzero hpos
    rw [hres, hzero]
    unfold jsDiv
    rw [if_pos rfl, if_neg (ne_of_gt hpos), if_pos hpos]
    rfl
  · intro hzero hexp0
    rw [hres, hzero, hexp0]
    rfl

/-- C25 at a stored record with experience 50 and the default threshold 100:
the percentage is 50. -/
theorem C25_progress_percentage_witness :
    (0 < (⟨1, statsHalfway, []⟩ : User).stats.experienceToNextLevel →
      progressPercentageOf (getUserProgress (singleStore statsHalfway) 1) =
        some (JsNumber.finite (min 100
          (100 * ((⟨1, statsHalfway, []⟩ : User).stats.experience : ℚ) /
            ((⟨1, statsHalfway, []⟩ : User).stats.experienceToNextLevel : ℚ)))) ∧
      (0 : ℚ) ≤ min 100
        (100 * ((⟨1, statsHalfway, []⟩ : User).stats.experience : ℚ) /
          ((⟨1, statsHalfway, []⟩ : User).stats.experienceToNextLevel : ℚ)) ∧
      min 100
        (100 * ((⟨1, statsHalfway, []⟩ : User).stats.experience : ℚ) /
          ((⟨1, statsHalfway, []⟩ : User).stats.experienceToNextLevel : ℚ)) ≤ 100) ∧
    ((⟨1, statsHalfway, []⟩ : User).stats.experienceToNextLevel = 0 →
      0 < (⟨1, statsHalfway, []⟩ : User).stats.experience →
      progressPercentageOf (getUserProgress (singleStore statsHalfway) 1) =
        some (JsNumber.finite 100)) ∧
    ((⟨1, statsHalfway, []⟩ : User).stats.experienceToNextLevel = 0 →
      (⟨1, statsHalfway, []⟩ : User).stats.experience = 0 →
      progressPercentageOf (getUserProgress (singleStore statsHalfway) 1) =
        some JsNumber.nan) :=
  C25_progress_percentage (singleStore statsHalfway) 1 ⟨1, statsHalfway, []⟩ rfl (by decide)

/-- C29: `User.updateStats` recomputes the totals from the report counts alone.
For a user with `R` reports of which `S` are resolved, the document after
`updateStats` has `totalReports = R`, `resolvedReports = S`,
`totalPoints = 10 * R + 50 * S` and `level = floor(R / 10) + 1`, whatever
`totalPoints` and `level` held before, every other modelled field is unchanged,
and that document is what the store holds. -/
theorem C29_updateStats_recomputes (db : Store) (reports : List Report) (user : User)
    (R S : Nat)
    (hR : countDocuments reports (fun r => r.createdBy == user._id) = R)
    (hS : countDocuments reports
      (fun r => r.createdBy == user._id && r.status == "resolved") = S) :
    (updateStats db reports user).2.stats =
      { user.stats with
        totalReports := (R : Int),
        resolvedReports := (S : Int),
        totalPoints := 10 * (R : Int) + 50 * (S : Int),
        level := ((R / 10 : Nat) : Int) + 1 } ∧
    findById (updateStats db reports user).1 user._id = some (updateStats db reports user).2 := by
  subst hR
  subst hS
  constructor
  · simp only [updateStats, mul_comm]
  · exact findById_save db _

/-- C29 (witness): a user at level 7 with 500 points who has two reports, one
resolved, ends with level 1 and 70 points. -/
theorem C29_updateStats_recomputes_witness :
    (updateStats (singleStore statsVeteran) threeReports ⟨1, statsVeteran, []⟩).2.stats =
      { (⟨1, statsVeteran, []⟩ : User).stats with
        totalReports := ((2 : Nat) : Int),
        resolvedReports := ((1 : Nat) : Int),
        totalPoints := 10 * ((2 : Nat) : Int) + 50 * ((1 : Nat) : Int),
        level := ((2 / 10 : Nat) : Int) + 1 } ∧
    findById (updateStats (singleStore statsVeteran) threeReports ⟨1, statsVeteran, []⟩).1
        (⟨1, statsVeteran, []⟩ : User)._id =
      some (updateStats (singleStore statsVeteran) threeReports ⟨1, statsVeteran, []⟩).2 :=
  C29_updateStats_recomputes (singleStore statsVeteran) threeReports ⟨1, statsVeteran, []⟩ 2 1
    (by decide) (by decide)

theorem floor120_gt {n : Int} (h : 100 ≤ n) : n < floor120 n := by
  unfold floor120
  omega

theorem runOps_append (userId : Nat) (xs ys : List Op) :
    ∀ db : Store, runOps db userId (xs ++ ys) = runOps (runOps db userId xs) userId ys := by
  induction xs with
  | nil => intro db; rfl
  | cons x xs ih =>
    intro db
    simp only [List.cons_append, runOps]
    split
    · exact ih _
    · exact ih _

/-- One service call of a run on a stored user, whether it returns or throws:
the user is still stored, and either level and threshold are what they were, or
the level rose by one and the threshold was replaced by `floor120` of itself. -/
theorem runOp_step (db : Store) (userId : Nat) (user : User) (op : Op)
    (hfind : findById db userId = some user) :
    ∃ user1, findById (runOps db userId [op]) userId = some user1 ∧
      ((user1.stats.level = user.stats.level ∧
          user1.stats.experienceToNextLevel = user.stats.experienceToNextLevel) ∨
        (user1.stats.level = user.stats.level + 1 ∧
          user1.stats.experienceToNextLevel = floor120 user.stats.experienceToNextLevel)) := by
  have hid := findById_id hfind
  cases op with
  | award action amount now =>
    by_cases hp : 0 < pointsToAward action amount
    · have hcall := awardPoints_award db userId user action amount now hfind hp
      have hfind1 := findById_save_of_id db (checkLevelUp db
        { user with stats := addPoints user.stats (pointsToAward action amount) } now).2.1 userId
        (by rw [checkLevelUp_id]; exact hid)
      refine ⟨_, by simp only [runOps, runOp, hcall]; exact hfind1, ?_⟩
      by_cases hge : ({ user with stats := addPoints user.stats (pointsToAward action amount) }
          : User).stats.experienceToNextLevel ≤
          ({ user with stats := addPoints user.stats (pointsToAward action amount) }
          : User).stats.experience
      · right
        rw [checkLevelUp_ge db _ now hge]
        dsimp only
        rw [checkAchievements_stats, foldl_unlock_level, foldl_unlock_experienceToNextLevel]
        exact ⟨rfl, rfl⟩
      · left
        rw [checkLevelUp_lt db _ now (not_le.mp hge)]
        exact ⟨rfl, rfl⟩
    · cases hin : resolvesToInherited action amount with
      | true =>
        have hcall := awardPoints_inherited db userId user action amount now hfind hin
        exact ⟨user, by simp only [runOps, runOp, hcall]; exact hfind, Or.inl ⟨rfl, rfl⟩⟩
      | false =>
        have hcall := awardPoints_noop db userId user action amount now hfind hin
          (not_lt.mp hp)
        exact ⟨user, by simp only [runOps, runOp, hcall]; exact hfind, Or.inl ⟨rfl, rfl⟩⟩
  | streak tz now =>
    obtain ⟨db1, r, user1, hcall, hfind1, hstats⟩ := updateStreak_step db userId user tz now hfind
    refine ⟨user1, by simp only [runOps, runOp, hcall]; exact hfind1, Or.inl ?_⟩
    rcases hstats with h | ⟨streak, _, h⟩
    · rw [h]
      exact ⟨rfl, rfl⟩
    · rw [h]
      exact ⟨rfl, rfl⟩
  | achievements trigger now =>
    rcases checkAchievements_store db user trigger now with h | h
    · exact ⟨user, by simp only [runOps, runOp, hfind, h], Or.inl ⟨rfl, rfl⟩⟩
    · refine ⟨(checkAchievements db user trigger now).2.1, ?_, Or.inl ?_⟩
      · simp only [runOps, runOp, hfind]
        rw [h]
        exact findById_save_of_id db _ userId hid
      · rw [checkAchievements_stats]
        exact ⟨foldl_unlock_level _ _ _, foldl_unlock_experienceToNextLevel _ _ _⟩

theorem runOps_invariant (userId : Nat) (ops : List Op) :
    ∀ (db : Store) (user : User), findById db userId = some user →
      100 ≤ user.stats.experienceToNextLevel →
      ∃ before, findById (runOps db userId ops) userId = some before ∧
        100 ≤ before.stats.experienceToNextLevel := by
  induction ops with
  | nil =>
    intro db user hfind hthr
    exact ⟨user, hfind, hthr⟩
  | cons o os ih =>
    intro db user hfind hthr
    obtain ⟨user1, hfind1, hstep⟩ := runOp_step db userId user o hfind
    have hthr1 : 100 ≤ user1.stats.experienceToNextLevel := by
      rcases hstep with h | h
      · rw [h.2]
        exact hthr
      · rw [h.2]
        exact le_trans hthr (le_of_lt (floor120_gt hthr))
    obtain ⟨before, hb, hbthr⟩ := ih (runOps db userId [o]) user1 hfind1 hthr1
    refine ⟨before, ?_, hbthr⟩
    rw [← runOps_append userId [o] os db] at hb
    exact hb

/-- C28: threshold growth. Starting from a stored record with the default
`experienceToNextLevel = 100`, after every sequence of `awardPoints`,
`updateStreak` and `checkAchievements` calls and one more call, the user is
still stored and the threshold is positive before and after the last call; that
call either leaves level and threshold as they were, or it is a level-up: the
level rises by one, the threshold is replaced by `floor(1.2 * previous)`, and
the new value is strictly greater than the previous one. -/
theorem C28_threshold_growth (db : Store) (userId : Nat) (user : User) (ops : List Op)
    (op : Op) (hfind : findById db userId = some user)
    (hdefault : user.stats.experienceToNextLevel = 100) :
    ∃ before after,
      findById (runOps db userId ops) userId = some before ∧
      findById (runOps db userId (ops ++ [op])) userId = some after ∧
      0 < before.stats.experienceToNextLevel ∧ 0 < after.stats.experienceToNextLevel ∧
      ((after.stats.level = before.stats.level ∧
          after.stats.experienceToNextLevel = before.stats.experienceToNextLevel) ∨
        (after.stats.level = before.stats.level + 1 ∧
          after.stats.experienceToNextLevel =
            ⌊(12 / 10 : ℚ) * (before.stats.experienceToNextLevel : ℚ)⌋ ∧
          before.stats.experienceToNextLevel < after.stats.experienceToNextLevel)) := by
  obtain ⟨before, hb, hbthr⟩ :=
    runOps_invariant userId ops db user hfind (by rw [hdefault])
  obtain ⟨after, hfind1, hstep⟩ :=
    runOp_step (runOps db userId ops) userId before op hb
  have hafter : findById (runOps db userId (ops ++ [op])) userId = some after := by
    rw [runOps_append]
    exact hfind1
  refine ⟨before, after, hb, hafter, by omega, ?_, ?_⟩
  · rcases hstep with h | h
    · rw [h.2]
      omega
    · rw [h.2]
      have := floor120_gt hbthr
      omega
  · rcases hstep with h | h
    · exact Or.inl h
    · refine Or.inr ⟨h.1, ?_, ?_⟩
      · rw [h.2, floor120_eq_floor]
      · rw [h.2]
        exact floor120_gt hbthr

/-- C28 (witness): a user at level 4 with experience 95 of the default 100 has
a streak update and is then awarded 10 points, which is a level-up. -/
theorem C28_threshold_growth_witness :
    ∃ before after,
      findById (runOps (singleStore statsLevel4) 1 [Op.streak 0 7]) 1 = some before ∧
      findById (runOps (singleStore statsLevel4) 1
        ([Op.streak 0 7] ++ [Op.award none (some 10) 7])) 1 = some after ∧
      0 < before.stats.experienceToNextLevel ∧ 0 < after.stats.experienceToNextLevel ∧
      ((after.stats.level = before.stats.level ∧
          after.stats.experienceToNextLevel = before.stats.experienceToNextLevel) ∨
        (after.stats.level = before.stats.level + 1 ∧
          after.stats.experienceToNextLevel =
            ⌊(12 / 10 : ℚ) * (before.stats.experienceToNextLevel : ℚ)⌋ ∧
          before.stats.experienceToNextLevel < after.stats.experienceToNextLevel)) :=
  C28_threshold_growth (singleStore statsLevel4) 1 ⟨1, statsLevel4, []⟩ [Op.streak 0 7]
    (Op.award none (some 10) 7) (by decide) (by decide)

/-! ## Claims about the leaderboard -/

theorem entryValue_selectStats (type : String) (stats : Stats) :
    entryValue type (selectStats stats) = sortField type stats := by
  unfold entryValue sortField selectStats
  split_ifs <;> rfl

theorem sortKeepingTies_sorts : SortsDescending sortKeepingTies := by
  constructor
  · intro key users
    exact List.perm_insertionSort _ users
  · intro key users
    haveI : IsTotal User (fun a b => key b ≤ key a) := ⟨fun a b => le_total (key b) (key a)⟩
    haveI : IsTrans User (fun a b => key b ≤ key a) :=
      ⟨fun a b c hab hbc => le_trans hbc hab⟩
    exact List.sorted_insertionSort (fun a b => key b ≤ key a) users

theorem sortReversingTies_sorts : SortsDescending sortReversingTies := by
  constructor
  · intro key users
    exact (List.perm_insertionSort _ users.reverse).trans (List.reverse_perm users)
  · intro key users
    haveI : IsTotal User (fun a b => key b ≤ key a) := ⟨fun a b => le_total (key b) (key a)⟩
    haveI : IsTrans User (fun a b => key b ≤ key a) :=
      ⟨fun a b c hab hbc => le_trans hbc hab⟩
    exact List.sorted_insertionSort (fun a b => key b ≤ key a) users.reverse

/-- The ranks of the mapped list are 1, 2, ... in order. -/
theorem mapIdx_rank (l : List User) :
    (l.mapIdx (fun index user =>
      ({ rank := index + 1, id := user._id, stats := selectStats user.stats }
        : LeaderboardEntry))).map (fun e => e.rank) = List.range' 1 l.length := by
  rw [List.mapIdx_eq_enum_map, List.map_map, List.range'_eq_map_range, ← List.enum_map_fst l,
    List.map_map]
  apply List.map_congr_left
  intro p _
  simp only [Function.comp, Function.uncurry]
  omega

/-- The mapped list carries the ids and selected stats of the users, in
order. -/
theorem mapIdx_id_stats (l : List User) :
    (l.mapIdx (fun index user =>
      ({ rank := index + 1, id := user._id, stats := selectStats user.stats }
        : LeaderboardEntry))).map (fun e => (e.id, e.stats)) =
      l.map (fun u => (u._id, selectStats u.stats)) := by
  rw [List.mapIdx_eq_enum_map, List.map_map]
  conv_rhs => rw [← List.enum_map_snd l, List.map_map]
  apply List.map_congr_left
  intro p _
  rfl

/-- C26 (counterexample): two fresh accounts have equal `totalPoints`; a
descending sort may return them in either order, and the two leaderboards
differ (user 1 has rank 1 in one, rank 2 in the other). The query gives no
tiebreak key, so the result is not fixed by the set of users. -/
theorem C26_counterexample :
    SortsDescending sortKeepingTies ∧ SortsDescending sortReversingTies ∧
    (getLeaderboard sortKeepingTies twoNewUsers "points" 5).map (fun e => (e.rank, e.id)) =
      [(1, 1), (2, 2)] ∧
    (getLeaderboard sortReversingTies twoNewUsers "points" 5).map (fun e => (e.rank, e.id)) =
      [(1, 2), (2, 1)] ∧
    getLeaderboard sortKeepingTies twoNewUsers "points" 5 ≠
      getLeaderboard sortReversingTies twoNewUsers "points" 5 := by
  refine ⟨sortKeepingTies_sorts, sortReversingTies_sorts, by decide, by decide, by decide⟩

/-- C26 (amended): leaderboard. For every collection of users, every metric,
every limit `k ≥ 1` and every descending sort of the store, `getLeaderboard`
returns `min(k, number of users)` entries, each the id and selected stats of a
user of the collection; the values of the selected field are non-increasing; a
user whose id is not on the board has a value no larger than any entry; and the
ranks are 1, 2, ... in order. The order of users with equal values is the one
the store's sort returns. -/
theorem C26_leaderboard (sort : (User → Int) → List User → List User)
    (users : List User) (type : String) (limit : Nat)
    (hsort : SortsDescending sort) (_hlimit : 1 ≤ limit) :
    (getLeaderboard sort users type limit).length = min limit users.length ∧
    (getLeaderboard sort users type limit).Pairwise
      (fun e1 e2 => entryValue type e2.stats ≤ entryValue type e1.stats) ∧
    (∀ u ∈ users, u._id ∉ (getLeaderboard sort users type limit).map (fun e => e.id) →
      ∀ e ∈ getLeaderboard sort users type limit,
        sortField type u.stats ≤ entryValue type e.stats) ∧
    (getLeaderboard sort users type limit).map (fun e => e.rank) =
      List.range' 1 (getLeaderboard sort users type limit).length ∧
    (∀ e ∈ getLeaderboard sort users type limit,
      ∃ u ∈ users, e.id = u._id ∧ e.stats = selectStats u.stats) := by
  have hperm := hsort.perm (fun u => sortField type u.stats) users
  have hsorted := hsort.sorted (fun u => sortField type u.stats) users
  have hproj := mapIdx_id_stats
    ((sort (fun u => sortField type u.stats) users).take limit)
  have hmem : ∀ e ∈ getLeaderboard sort users type limit,
      ∃ u ∈ (sort (fun u => sortField type u.stats) users).take limit,
        e.id = u._id ∧ e.stats = selectStats u.stats := by
    intro e he
    have h1 : (e.id, e.stats) ∈ (getLeaderboard sort users type limit).map
        (fun e => (e.id, e.stats)) := List.mem_map_of_mem _ he
    unfold getLeaderboard at h1
    rw [hproj] at h1
    obtain ⟨u, hu, hue⟩ := List.mem_map.mp h1
    simp only [Prod.mk.injEq] at hue
    exact ⟨u, hu, hue.1.symm, hue.2.symm⟩
  have hlen : (getLeaderboard sort users type limit).length = min limit users.length := by
    unfold getLeaderboard
    rw [List.length_mapIdx, List.length_take, hperm.length_eq]
  refine ⟨hlen, ?_, ?_, ?_, ?_⟩
  · have h2 : ((getLeaderboard sort users type limit).map (fun e => (e.id, e.stats))).Pairwise
        (fun p q => entryValue type q.2 ≤ entryValue type p.2) := by
      unfold getLeaderboard
      rw [hproj, List.pairwise_map]
      simp only [entryValue_selectStats]
      exact hsorted.sublist (List.take_sublist _ _)
    exact List.pairwise_map.mp h2
  · intro u hu hid e he
    obtain ⟨v, hv, hvid, hvstats⟩ := hmem e he
    rw [hvstats, entryValue_selectStats]
    have hus : u ∈ (sort (fun u => sortField type u.stats) users).take limit ++
        (sort (fun u => sortField type u.stats) users).drop limit := by
      rw [List.take_append_drop]
      exact hperm.symm.subset hu
    rcases List.mem_append.mp hus with h | h
    · exfalso
      apply hid
      have h1 : (u._id, selectStats u.stats) ∈ (getLeaderboard sort users type limit).map
          (fun e => (e.id, e.stats)) := by
        unfold getLeaderboard
        rw [hproj]
        exact List.mem_map_of_mem _ h
      obtain ⟨e1, he1, hproj1⟩ := List.mem_map.mp h1
      simp only [Prod.mk.injEq] at hproj1
      rw [← hproj1.1]
      exact List.mem_map_of_mem _ he1
    · have hsplit := hsorted
      rw [← List.take_append_drop limit (sort (fun u => sortField type u.stats) users),
        List.pairwise_append] at hsplit
      exact hsplit.2.2 v hv u h
  · unfold getLeaderboard
    rw [mapIdx_rank, List.length_mapIdx]
  · intro e he
    obtain ⟨u, hu, hid, hstats⟩ := hmem e he
    exact ⟨u, hperm.subset (List.mem_of_mem_take hu), hid, hstats⟩

/-- C26 (witness): the two fresh accounts, the metric `points`, limit 5 and the
sort that keeps ties in collection order. -/
theorem C26_leaderboard_witness :
    (getLeaderboard sortKeepingTies twoNewUsers "points" 5).length =
      min 5 twoNewUsers.length ∧
    (getLeaderboard sortKeepingTies twoNewUsers "points" 5).Pairwise
      (fun e1 e2 => entryValue "points" e2.stats ≤ entryValue "points" e1.stats) ∧
    (∀ u ∈ twoNewUsers,
      u._id ∉ (getLeaderboard sortKeepingTies twoNewUsers "points" 5).map (fun e => e.id) →
      ∀ e ∈ getLeaderboard sortKeepingTies twoNewUsers "points" 5,
        sortField "points" u.stats ≤ entryValue "points" e.stats) ∧
    (getLeaderboard sortKeepingTies twoNewUsers "points" 5).map (fun e => e.rank) =
      List.range' 1 (getLeaderboard sortKeepingTies twoNewUsers "points" 5).length ∧
    (∀ e ∈ getLeaderboard sortKeepingTies twoNewUsers "points" 5,
      ∃ u ∈ twoNewUsers, e.id = u._id ∧ e.stats = selectStats u.stats) :=
  C26_leaderboard sortKeepingTies twoNewUsers "points" 5 sortKeepingTies_sorts (by decide)

end Gamification
